import Mathlib

/-!
Verification development for the smart-procure backend core
(`app/services/sheet_schema.py`, `app/services/excel_core.py`,
`app/api/routes.py` batch branch, `app/services/agent_runtime.py`).

Modelling conventions:
* A spreadsheet cell is absent (`none`), a string, or a number.  Numbers are
  modelled as rationals (the source uses Python floats; all behaviour the
  claims touch is exact arithmetic on decimal inputs).
* Python `str.strip` is modelled by `String.trim`, Python's regex `\s` by
  `Char.isWhitespace`, and Python's `in` on strings by an explicit substring
  scan (`py_in`).
* `float(x)` applied to a string is modelled as decimal-number parsing
  (optional sign, digits, optional fractional part); any other string fails
  to parse, which the source maps to the `+inf` sentinel, modelled here as
  `Option.none`.
-/

/-- A spreadsheet cell value: absent (Python `None`), a string, or a number. -/
inductive Cell where
  | none
  | str (s : String)
  | num (q : Rat)
deriving DecidableEq, Repr

/-- `str(v)` as used on cell values: `None` prints as "None", numbers via
`toString`. -/
def Cell.pyStr : Cell → String
  | Cell.none => "None"
  | Cell.str s => s
  | Cell.num q => toString q

/-- Python `str.strip()`: drop whitespace from both ends. -/
def py_strip (s : String) : String :=
  String.mk (((s.data.dropWhile Char.isWhitespace).reverse.dropWhile
      Char.isWhitespace).reverse)

/-- `_cell_text` from `sheet_schema.py`: empty string for an absent cell,
otherwise `str(v).strip()`. -/
def cell_text : Cell → String
  | Cell.none => ""
  | Cell.str s => py_strip s
  | Cell.num q => py_strip (toString q)

/-- Does the character list `n` occur as a leading segment of `h`? -/
def listStarts : List Char → List Char → Bool
  | [], _ => true
  | _ :: _, [] => false
  | a :: as, b :: bs => a == b && listStarts as bs

/-- Does the character list `n` occur contiguously anywhere inside `h`? -/
def listSub (n : List Char) : List Char → Bool
  | [] => n.isEmpty
  | b :: bs => listStarts n (b :: bs) || listSub n bs

/-- Python's substring test `n in h`. -/
def py_in (n h : String) : Bool := listSub n.data h.data

/-- `normalize_header` from `sheet_schema.py`: drop all whitespace, map
full-width parentheses and colon to their half-width forms. -/
def normalize_header (s : String) : String :=
  String.mk ((s.data.filter (fun c => !c.isWhitespace)).map
    (fun c =>
      if c = '（' then '('
      else if c = '）' then ')'
      else if c = '：' then ':'
      else c))

/-- `normalize_header` applied to a raw cell: the source returns "" for
`None` and stringifies other values first. -/
def normalize_cell (c : Cell) : String :=
  match c with
  | Cell.none => ""
  | _ => normalize_header c.pyStr

/-- Digits of a decimal string, if every character is a digit. -/
def digitsVal : List Char → Option Nat
  | [] => some 0
  | c :: cs =>
    if c.isDigit then
      (digitsVal cs).map (fun v => (c.toNat - '0'.toNat) * 10 ^ cs.length + v)
    else
      Option.none

/-- Magnitude part of a decimal numeral: digits with an optional single
decimal point, at least one digit overall. -/
def parse_mag (body : List Char) : Option Rat :=
  match body.splitOn '.' with
  | [intPart] =>
    if intPart.isEmpty then Option.none
    else (digitsVal intPart).map (fun v => (v : Rat))
  | [intPart, fracPart] =>
    if intPart.isEmpty && fracPart.isEmpty then Option.none
    else
      match digitsVal intPart, digitsVal fracPart with
      | some i, some f =>
        some ((i : Rat) + (f : Rat) / (10 : Rat) ^ fracPart.length)
      | _, _ => Option.none
  | _ => Option.none

/-- Parse an optionally signed decimal numeral (models `float(s)` on the
string inputs the program meets; failure models the `except` branch). -/
def parse_float (s : String) : Option Rat :=
  match (py_strip s).data with
  | '-' :: rest => (parse_mag rest).map (fun q => -q)
  | '+' :: rest => parse_mag rest
  | rest => parse_mag rest

/-! ## Sheet schema (`sheet_schema.py`) -/
/-- The seven canonical slot fields (品牌, 备注, 单价, 含税, 含运, 货期,
供应商 under their Chinese keys in the source). -/
inductive SlotField where
  | brand
  | remark
  | price
  | tax
  | shipping
  | leadTime
  | supplier
deriving DecidableEq, Repr

/-- `SLOT_TEMPLATE` from `models/columns.py`: 品牌, 备注, 单价, 含税, 含运,
货期, 供应商. -/
def SLOT_TEMPLATE : List SlotField :=
  [.brand, .remark, .price, .tax, .shipping, .leadTime, .supplier]

/-- `SLOT_FIELDS` from `build_sheet_schema`: 品牌, 单价, 含税, 含运, 货期,
备注, 供应商. -/
def SLOT_FIELDS : List SlotField :=
  [.brand, .price, .tax, .shipping, .leadTime, .remark, .supplier]

/-- The slot mapping dict built by `for i, field in enumerate(SLOT_FIELDS):
slot_mapping[field] = col_idx + i`. -/
def mk_slot_mapping (colIdx : Nat) (f : SlotField) : Nat :=
  colIdx + SLOT_FIELDS.indexOf f

/-- The `while col_idx + SLOT_SIZE <= len(headers)` loop of
`build_sheet_schema`; `fuel` bounds the number of iterations (the caller
passes enough for the loop to run to completion, see
`build_slots_aux_closed`). -/
def build_slots_aux (fuel : Nat) (slotNum colIdx numHeaders : Nat) :
    List (Nat × (SlotField → Nat)) :=
  match fuel with
  | 0 => []
  | fuel + 1 =>
    if colIdx + 7 ≤ numHeaders then
      (slotNum, mk_slot_mapping colIdx) ::
        build_slots_aux fuel (slotNum + 1) (colIdx + 7) numHeaders
    else []

def ITEM_NAME_COL_SYNONYMS : List String :=
  ["物料名称", "物品名称", "品名", "名称", "物料", "产品名称", "材料名称"]

def ITEM_SPEC_COL_SYNONYMS : List String :=
  ["规格", "规格型号", "规格型号", "型号", "规格/型号", "规格型号/型号"]

def ITEM_BRAND_COL_SYNONYMS : List String :=
  ["品牌", "牌", "品牌名称"]

def ITEM_MODEL_COL_SYNONYMS : List String :=
  ["产品型号", "型号", "物料型号", "规格型号", "产品编码", "物料编码", "料号",
   "型号/编码", "规格型号/编码"]

/-- Inner loop of `_best_header_index`: first header index (scanning left to
right from position `i`) whose normalized text satisfies `p`. -/
def find_col (p : String → Bool) : List String → Nat → Option Nat
  | [], _ => Option.none
  | h :: t, i => if p h then some i else find_col p t (i + 1)

/-- Outer loop of `_best_header_index`: first candidate (in priority order)
that matches some header, returning that header's index. -/
def scan_candidates (matchFn : String → String → Bool)
    (normHeaders : List String) : List String → Option Nat
  | [] => Option.none
  | c :: cs =>
    match find_col (fun h => !(h == "") && matchFn h c) normHeaders 0 with
    | some i => some i
    | Option.none => scan_candidates matchFn normHeaders cs

/-- `_best_header_index` from `sheet_schema.py`: an exact-equality pass over
all candidates, then a substring-containment pass. -/
def best_header_index (headers : List Cell) (candidates : List String) :
    Option Nat :=
  let normHeaders := headers.map normalize_cell
  let candidateNorm := candidates.map normalize_header
  match scan_candidates (fun h c => h == c) normHeaders candidateNorm with
  | some i => some i
  | Option.none =>
    scan_candidates (fun h c => !(c == "") && (py_in c h || py_in h c))
      normHeaders candidateNorm

structure ItemColumns where
  name : Option Nat
  spec : Option Nat
  brand : Option Nat
  model : Option Nat
deriving DecidableEq, Repr

/-- `infer_item_columns` from `sheet_schema.py`. -/
def infer_item_columns (headers : List Cell) : ItemColumns :=
  { name := best_header_index headers ITEM_NAME_COL_SYNONYMS
    spec := best_header_index headers ITEM_SPEC_COL_SYNONYMS
    brand := best_header_index headers ITEM_BRAND_COL_SYNONYMS
    model := best_header_index headers ITEM_MODEL_COL_SYNONYMS }

/-- The `header_index` dict of `build_sheet_schema` (first occurrence of each
non-empty normalized header). -/
def header_index_aux : Nat → List (String × Nat) → List Cell →
    List (String × Nat)
  | _, acc, [] => acc
  | idx, acc, h :: t =>
    let nh := normalize_cell h
    if nh ≠ "" ∧ (acc.lookup nh).isNone then
      header_index_aux (idx + 1) (acc ++ [(nh, idx)]) t
    else
      header_index_aux (idx + 1) acc t

structure SheetSchema where
  headers : List Cell
  headerIndex : List (String × Nat)
  slots : List (Nat × (SlotField → Nat))
  itemColumns : ItemColumns

/-- `build_sheet_schema` from `sheet_schema.py`: fixed-position mode with
`BASIC_COLS_COUNT = 5` base columns and 7-column slot blocks. -/
def build_sheet_schema (sheet : List (List Cell)) : SheetSchema :=
  let headers := match sheet with | [] => [] | h :: _ => h
  { headers := headers
    headerIndex := header_index_aux 0 [] headers
    slots := build_slots_aux (headers.length + 1) 1 5 headers.length
    itemColumns := infer_item_columns (headers.take 5) }

/-! ## Slot ranking engine (`excel_core.py`) -/
/-- `row[idx] if idx < len(row) else None`. -/
def get_cell (row : List Cell) (i : Nat) : Cell :=
  row.getD i Cell.none

/-- `_ensure_row_len`: pad the row with `None` up to `length` entries. -/
def ensure_row_len (row : List Cell) (length : Nat) : List Cell :=
  row ++ List.replicate (length - row.length) Cell.none

/-- One `row[idx] = value` assignment guarded by `_ensure_row_len(row, idx+1)`. -/
def set_cell (row : List Cell) (i : Nat) (v : Cell) : List Cell :=
  (ensure_row_len row (i + 1)).set i v

/-- One slot's worth of values (the per-slot dict keyed by `SLOT_TEMPLATE`). -/
structure Offer where
  brand : Cell
  remark : Cell
  price : Cell
  tax : Cell
  shipping : Cell
  leadTime : Cell
  supplier : Cell
deriving DecidableEq, Repr

def Offer.field (o : Offer) : SlotField → Cell
  | .brand => o.brand
  | .remark => o.remark
  | .price => o.price
  | .tax => o.tax
  | .shipping => o.shipping
  | .leadTime => o.leadTime
  | .supplier => o.supplier

/-- `empty_offer = {k: None for k in SLOT_TEMPLATE}`. -/
def empty_offer : Offer :=
  ⟨Cell.none, Cell.none, Cell.none, Cell.none, Cell.none, Cell.none, Cell.none⟩

/-- `_get_slot_index` from `excel_core.py`. -/
def get_slot_index (schema : SheetSchema) (slotNum : Nat) (f : SlotField) :
    Option Nat :=
  (schema.slots.lookup slotNum).map (fun m => m f)

def get_slot_cell (row : List Cell) (schema : SheetSchema) (slotNum : Nat)
    (f : SlotField) : Cell :=
  match get_slot_index schema slotNum f with
  | some i => get_cell row i
  | Option.none => Cell.none

/-- `get_slot_values` from `excel_core.py`. -/
def get_slot_values (row : List Cell) (schema : SheetSchema) (slotNum : Nat) :
    Offer :=
  { brand := get_slot_cell row schema slotNum .brand
    remark := get_slot_cell row schema slotNum .remark
    price := get_slot_cell row schema slotNum .price
    tax := get_slot_cell row schema slotNum .tax
    shipping := get_slot_cell row schema slotNum .shipping
    leadTime := get_slot_cell row schema slotNum .leadTime
    supplier := get_slot_cell row schema slotNum .supplier }

/-- `set_slot_values` from `excel_core.py`: write each `SLOT_TEMPLATE` field
of `values` at its slot column. -/
def set_slot_values (row : List Cell) (schema : SheetSchema) (slotNum : Nat)
    (values : Offer) : List Cell :=
  SLOT_TEMPLATE.foldl
    (fun r f =>
      match get_slot_index schema slotNum f with
      | some i => set_cell r i (values.field f)
      | Option.none => r)
    row

/-- `get_price` from `excel_core.py`; `Option.none` stands for the
`float('inf')` sentinel (absent or unparseable price). -/
def get_price (o : Offer) : Option Rat :=
  match o.price with
  | Cell.none => Option.none
  | Cell.str s => if s = "" ∨ s = "None" then Option.none else parse_float s
  | Cell.num q => some q

/-- `shipping: Optional[Union[bool, str]]` of `UpdateAction`. -/
inductive ShipVal where
  | bool (b : Bool)
  | str (s : String)
deriving DecidableEq, Repr

/-- `UpdateAction` from `models/types.py` (the fields `process_update`
reads; the `lookup_*` hint fields are consumed upstream). -/
structure UpdateAction where
  targetRow : Int
  price : Rat
  tax : Bool := false
  shipping : Option ShipVal := some (ShipVal.bool false)
  deliveryTime : String
  offerBrand : Option String := Option.none
  supplier : Option String := Option.none
  remarks : Option String := Option.none
  quotedModel : Option String := Option.none
  quotedSpec : Option String := Option.none
deriving Repr

def py_lower (s : String) : String := String.mk (s.data.map Char.toLower)

/-- The `row_model` / `row_spec` / `row_brand` extraction of
`process_update`: the cell at the item column, stringified and stripped,
dropped when empty or the literal text "none" (case-insensitive). -/
def row_field (row : List Cell) (colIdx : Option Nat) : Option String :=
  match colIdx with
  | some i =>
    if i < row.length then
      match row.getD i Cell.none with
      | Cell.none => Option.none
      | v =>
        let s := py_strip v.pyStr
        if s ≠ "" ∧ py_lower s ≠ "none" then some s else Option.none
    else Option.none
  | Option.none => Option.none

/-- The mismatch auto-remark of `process_update` (`label` is 型号不一致 for
the model, 规格不一致 for the spec): produced when the quoted value is a
non-blank string, the row value is present, and the two differ after
normalization compared case-insensitively. -/
def auto_remark (label : String) (quoted : Option String)
    (rowVal : Option String) : Option String :=
  match quoted, rowVal with
  | some q, some m =>
    let qs := py_strip q
    if qs ≠ "" ∧ py_lower (normalize_header qs) ≠ py_lower (normalize_header m)
    then some (label ++ ": 报价(" ++ qs ++ ") 表内(" ++ m ++ ")")
    else Option.none
  | _, _ => Option.none

/-- The remark-merging step of `process_update`: keep a blank user remark
out, append the auto remark after `；` unless it is already contained. -/
def merge_remark (remarks : Option String) (auto : Option String) :
    Option String :=
  match auto with
  | Option.none => remarks
  | some t =>
    match remarks with
    | Option.none => some t
    | some r =>
      if py_strip r = "" then some t
      else if py_in t r then some r
      else some (py_strip r ++ "；" ++ t)

def ship_cell (sv : Option ShipVal) : Cell :=
  match sv with
  | some (ShipVal.str s) => Cell.str s
  | some (ShipVal.bool b) => Cell.str (if b then "是" else "否")
  | Option.none => Cell.str "否"

def opt_str_cell : Option String → Cell
  | some s => Cell.str s
  | Option.none => Cell.none

/-- `offer_brand` defaulting: fall back to the row's own brand when the
action's brand is absent or blank. -/
def resolve_offer_brand (actionBrand rowBrand : Option String) :
    Option String :=
  match actionBrand with
  | some s => if py_strip s = "" then (match rowBrand with
      | some b => some b
      | Option.none => some s) else some s
  | Option.none => rowBrand

/-- The new offer dict built by `process_update`. -/
def new_offer_of (a : UpdateAction) (remarks : Option String)
    (offerBrand : Option String) : Offer :=
  { brand := opt_str_cell offerBrand
    remark := opt_str_cell remarks
    price := Cell.num a.price
    tax := Cell.str (if a.tax then "是" else "否")
    shipping := ship_cell a.shipping
    leadTime := Cell.str a.deliveryTime
    supplier := opt_str_cell a.supplier }

/-- The priced-offer collection loop of `process_update`: slots whose price
is the `inf` sentinel are dropped; each kept entry is `(price, slot, values)`. -/
def priced_offers (row : List Cell) (schema : SheetSchema)
    (slotNumbers : List Nat) : List (Rat × Nat × Offer) :=
  slotNumbers.filterMap (fun n =>
    match get_price (get_slot_values row schema n) with
    | some p => some (p, n, get_slot_values row schema n)
    | Option.none => Option.none)

/-- `offers.sort(key=lambda x: (x[0], x[1]))` — the sort key is the
(price, slot-number) pair; slot numbers are distinct, so any stable sort
(modelled as insertion sort) produces the unique sorted arrangement. -/
def offer_key_le (a b : Rat × Nat × Offer) : Prop :=
  a.1 < b.1 ∨ (a.1 = b.1 ∧ a.2.1 ≤ b.2.1)

instance : DecidableRel offer_key_le := fun a b => by
  unfold offer_key_le
  exact inferInstance

def sort_offers (l : List (Rat × Nat × Offer)) : List (Rat × Nat × Offer) :=
  List.insertionSort offer_key_le l

/-- `p_new < get_price(v)` — comparison against the `inf` sentinel. -/
def price_lt (p : Rat) (po : Option Rat) : Bool :=
  match po with
  | some q => decide (p < q)
  | Option.none => true

/-- The insertion loop of `process_update`: the new offer goes right before
the first existing offer whose price is strictly greater, else at the end. -/
def insert_by_price (newOffer : Offer) (pNew : Rat) :
    List Offer → List Offer
  | [] => [newOffer]
  | v :: rest =>
    if price_lt pNew (get_price v) then newOffer :: v :: rest
    else v :: insert_by_price newOffer pNew rest

/-- The write-back loop of `process_update`. -/
def write_slots (schema : SheetSchema) (pairs : List (Nat × Offer))
    (row : List Cell) : List Cell :=
  pairs.foldl (fun r p => set_slot_values r schema p.1 p.2) row

/-- The slot numbers used by `process_update`
(`sorted([int(s) for s in slots.keys()])`). -/
def slot_numbers_of (schema : SheetSchema) : List Nat :=
  List.insertionSort (· ≤ ·) (schema.slots.map Prod.fst)

/-- The padded (slot number, offer) write list: ranked offers first, every
later slot cleared to the all-absent offer. -/
def write_pairs (slotNumbers : List Nat) (outVals : List Offer) :
    List (Nat × Offer) :=
  slotNumbers.zip
    (outVals ++ List.replicate (slotNumbers.length - outVals.length)
      empty_offer)

/-- The new offer `process_update` constructs for the target row: the
merged remark (user remark plus model/spec mismatch auto-remarks) and the
brand default resolved against the row's own cells. -/
def the_new_offer (sheet : List (List Cell)) (a : UpdateAction)
    (row : List Cell) : Offer :=
  let schema := build_sheet_schema sheet
  let cols := schema.itemColumns
  let rowModel := row_field row cols.model
  let rowSpec := row_field row cols.spec
  let rowBrand := row_field row cols.brand
  let autoM := auto_remark "型号不一致" a.quotedModel rowModel
  let autoS := auto_remark "规格不一致" a.quotedSpec rowSpec
  let remarks := merge_remark (merge_remark a.remarks autoM) autoS
  let offerBrand := resolve_offer_brand a.offerBrand rowBrand
  new_offer_of a remarks offerBrand

/-- Everything `process_update` does to the target row once it is in range
and at least one slot was detected. -/
def update_row (sheet : List (List Cell)) (a : UpdateAction)
    (row : List Cell) : List Cell :=
  let schema := build_sheet_schema sheet
  let slotNumbers := slot_numbers_of schema
  let newOffer := the_new_offer sheet a row
  let sortedVals := (sort_offers (priced_offers row schema slotNumbers)).map
    (fun x => x.2.2)
  let outVals := (insert_by_price newOffer a.price sortedVals).take
    slotNumbers.length
  write_slots schema (write_pairs slotNumbers outVals) row

/-- `process_update` from `excel_core.py` (the supplier-persistence tail
touches only the database, never the sheet, and is omitted). -/
def process_update (sheet : List (List Cell)) (a : UpdateAction) :
    List (List Cell) :=
  let targetIdx := a.targetRow - 1
  if targetIdx < 0 ∨ (sheet.length : Int) ≤ targetIdx then sheet
  else
    let idx := targetIdx.toNat
    let schema := build_sheet_schema sheet
    if schema.slots.isEmpty then sheet
    else if (slot_numbers_of schema).isEmpty then sheet
    else sheet.set idx (update_row sheet a (sheet.getD idx []))

/-! ### Concrete sheets used in examples and witnesses -/
/-- A 26-column header row: 5 base columns then three 7-column slot blocks,
labelled in the positional order `build_sheet_schema` assigns. -/
def exHeaders : List Cell :=
  ["物料名称", "规格", "品牌", "产品型号", "单位",
   "品牌1", "单价1", "含税1", "含运1", "货期1", "备注1", "供应商1",
   "品牌2", "单价2", "含税2", "含运2", "货期2", "备注2", "供应商2",
   "品牌3", "单价3", "含税3", "含运3", "货期3", "备注3", "供应商3"].map
    Cell.str

/-- Data row with slot prices `[100, absent, 200]` (slot 2 empty). -/
def exRowGap : List Cell :=
  [Cell.str "电机", Cell.str "1KW", Cell.str "西门子", Cell.str "M1",
   Cell.str "台",
   Cell.str "品牌甲", Cell.num 100, Cell.str "是", Cell.str "是",
   Cell.str "5天", Cell.str "备注甲", Cell.str "供应商甲",
   Cell.none, Cell.none, Cell.none, Cell.none, Cell.none, Cell.none,
   Cell.none,
   Cell.str "品牌丙", Cell.num 200, Cell.str "是", Cell.str "是",
   Cell.str "7天", Cell.str "备注丙", Cell.str "供应商丙"]

/-- Data row with all three slots priced `[100, 150, 200]`. -/
def exRowFull : List Cell :=
  [Cell.str "电机", Cell.str "1KW", Cell.str "西门子", Cell.str "M1",
   Cell.str "台",
   Cell.str "品牌甲", Cell.num 100, Cell.str "是", Cell.str "是",
   Cell.str "5天", Cell.str "备注甲", Cell.str "供应商甲",
   Cell.str "品牌乙", Cell.num 150, Cell.str "是", Cell.str "是",
   Cell.str "6天", Cell.str "备注乙", Cell.str "供应商乙",
   Cell.str "品牌丙", Cell.num 200, Cell.str "是", Cell.str "是",
   Cell.str "7天", Cell.str "备注丙", Cell.str "供应商丙"]

def exSheetGap : List (List Cell) := [exHeaders, exRowGap]

def exSheetFull : List (List Cell) := [exHeaders, exRowFull]

def exAction150 : UpdateAction :=
  { targetRow := 2, price := 150, tax := true,
    shipping := some (ShipVal.bool true), deliveryTime := "3天",
    offerBrand := some "新品牌", supplier := some "新供应商" }

def exAction120 : UpdateAction :=
  { targetRow := 2, price := 120, tax := true,
    shipping := some (ShipVal.bool true), deliveryTime := "3天",
    offerBrand := some "新品牌", supplier := some "新供应商" }

/-- Prices of slots 1..K of a sheet's target row, as read back through the
schema. -/
def slot_prices (sheet : List (List Cell)) (rowIdx0 : Nat) :
    List (Option Rat) :=
  let schema := build_sheet_schema sheet
  (slot_numbers_of schema).map (fun n =>
    get_price (get_slot_values (sheet.getD rowIdx0 []) schema n))

/-! ## Row locator (`locate_rows_by_criteria`) -/
/-- `_col_norm` from `locate_rows_by_criteria`. -/
def col_norm (row : List Cell) (idx : Option Nat) : String :=
  match idx with
  | some i =>
    if i < row.length then normalize_header (cell_text (row.getD i Cell.none))
    else ""
  | Option.none => ""

/-- Name tier of the per-row score of `locate_rows_by_criteria`. -/
def name_score (qn nh : String) : Nat :=
  if qn ≠ "" ∧ nh ≠ "" then
    (if qn = nh then 1200
     else if py_in qn nh then 350 + min qn.length 50
     else if py_in nh qn then 200 + min nh.length 50
     else 0)
  else 0

/-- Brand tier of the per-row score. -/
def brand_score (qb bh : String) : Nat :=
  if qb ≠ "" ∧ bh ≠ "" then
    (if qb = bh then 800
     else if py_in qb bh || py_in bh qb then 250 + min qb.length 30
     else 0)
  else 0

/-- Model step: adds the model tier, or zeroes the accumulated score when a
supplied model does not match at all. -/
def model_step (qm mh : String) (s : Nat) : Nat :=
  if qm ≠ "" ∧ mh ≠ "" then
    (if qm = mh then s + 1600
     else if py_in qm mh || py_in mh qm then s + 500 + min qm.length 30
     else 0)
  else s

/-- Spec step: adds the spec tier; on a spec mismatch the score is zeroed
only when a model criterion was supplied. -/
def spec_step (qm qs sh : String) (s : Nat) : Nat :=
  if qs ≠ "" ∧ sh ≠ "" then
    (if qs = sh then s + 900
     else if py_in qs sh || py_in sh qs then s + 250 + min qs.length 30
     else if qm ≠ "" then 0 else s)
  else s

/-- The per-row score of `locate_rows_by_criteria`, accumulated in source
order: name, brand, model, spec. -/
def row_score (qn qb qm qs nh bh mh sh : String) : Nat :=
  spec_step qm qs sh (model_step qm mh (name_score qn nh + brand_score qb bh))

/-- Score of one data row given the inferred item columns. -/
def row_score_at (qn qb qm qs : String) (cols : ItemColumns)
    (row : List Cell) : Nat :=
  row_score qn qb qm qs (col_norm row cols.name) (col_norm row cols.brand)
    (col_norm row cols.model) (col_norm row cols.spec)

/-- The scan loop of `locate_rows_by_criteria`: data rows are numbered from
2; the loop breaks past `maxScan`; rows scoring zero are dropped. -/
def scored_rows (qn qb qm qs : String) (cols : ItemColumns) (maxScan : Nat) :
    Nat → List (List Cell) → List (Nat × Nat)
  | _, [] => []
  | i, row :: rest =>
    if maxScan < i then []
    else
      let s := row_score_at qn qb qm qs cols row
      if 0 < s then (i, s) :: scored_rows qn qb qm qs cols maxScan (i + 1) rest
      else scored_rows qn qb qm qs cols maxScan (i + 1) rest

/-- `scored.sort(key=lambda x: x[1], reverse=True)` — a stable descending
sort by score, modelled as insertion sort. -/
def sort_scored (l : List (Nat × Nat)) : List (Nat × Nat) :=
  List.insertionSort (fun a b : Nat × Nat => b.2 ≤ a.2) l

/-- `_raw` from `locate_rows_by_criteria`. -/
def raw_cell (row : List Cell) (idx : Option Nat) : Option Cell :=
  match idx with
  | some i =>
    if i < row.length then
      match row.getD i Cell.none with
      | Cell.none => Option.none
      | v =>
        let t := py_strip v.pyStr
        if t = "" ∨ py_lower t = "none" then Option.none else some v
    else Option.none
  | Option.none => Option.none

structure Candidate where
  row : Nat
  score : Nat
  name : Option Cell
  brand : Option Cell
  model : Option Cell
  spec : Option Cell
deriving DecidableEq, Repr

structure LocateResult where
  candidates : List Candidate
  ambiguous : Bool
deriving DecidableEq, Repr

/-- The `weak_only` flag of `locate_rows_by_criteria`. -/
def weak_only_of (qn qb qm qs : String) : Bool :=
  if qm ≠ "" ∨ qs ≠ "" then false
  else if qn ≠ "" ∧ qn.length ≤ 2 ∧ qb = "" then true
  else if qb ≠ "" ∧ qn = "" then true
  else false

/-- `locate_rows_by_criteria` from `sheet_schema.py`. -/
def locate_rows_by_criteria (sheet : List (List Cell))
    (itemName brand model spec : Option String)
    (maxCandidates maxScan : Nat) : LocateResult :=
  if sheet.length < 2 then ⟨[], false⟩
  else
    let headers := sheet.headD []
    let cols := infer_item_columns headers
    let qn := (itemName.map normalize_header).getD ""
    let qb := (brand.map normalize_header).getD ""
    let qm := (model.map normalize_header).getD ""
    let qs := (spec.map normalize_header).getD ""
    if qn = "" ∧ qb = "" ∧ qm = "" ∧ qs = "" then ⟨[], false⟩
    else
      let weakOnly := weak_only_of qn qb qm qs
      let scored := scored_rows qn qb qm qs cols maxScan 2 (sheet.drop 1)
      let top := (sort_scored scored).take maxCandidates
      let candidates := top.map (fun p =>
        let row := if p.1 - 1 < sheet.length then sheet.getD (p.1 - 1) []
          else ([] : List Cell)
        { row := p.1, score := p.2,
          name := raw_cell row cols.name, brand := raw_cell row cols.brand,
          model := raw_cell row cols.model, spec := raw_cell row cols.spec
          : Candidate })
      ⟨candidates, weakOnly && decide (1 < candidates.length)⟩

/-- Two data rows sharing a brand, no other overlap. -/
def brandRow1 : List Cell :=
  [Cell.str "电机", Cell.str "1KW", Cell.str "西门子", Cell.str "M1",
   Cell.str "台"]

def brandRow2 : List Cell :=
  [Cell.str "风机", Cell.str "2KW", Cell.str "西门子", Cell.str "F1",
   Cell.str "台"]

def brandSheet : List (List Cell) := [exHeaders, brandRow1, brandRow2]

/-- Two data rows sharing a model. -/
def modelRow1 : List Cell :=
  [Cell.str "电机", Cell.str "1KW", Cell.str "西门子", Cell.str "MX", Cell.str "台"]

def modelRow2 : List Cell :=
  [Cell.str "风机", Cell.str "2KW", Cell.str "ABB", Cell.str "MX", Cell.str "台"]

def modelSheet : List (List Cell) := [exHeaders, modelRow1, modelRow2]

/-! ## Batch WRITE handling (`routes.py`, chat endpoint `updates` branch) -/
/-- The fields of one element of the writer's `updates` list that the batch
loop reads.  `Option.none` models an absent or `None` dict entry; for `tax`
and `shipping` the loop tests key *presence*, recorded separately. -/
structure BatchFields where
  targetRow : Option Int
  price : Option Rat
  taxPresent : Bool
  taxVal : Bool
  shippingPresent : Bool
  shippingVal : Option ShipVal
  deliveryTime : Option String
  supplier : Option String
  remarks : Option String
  offerBrand : Option String
  quotedModel : Option String
  quotedSpec : Option String
  lookupSupplier : Option String
deriving DecidableEq

/-- One element of the `updates` list: the loop silently skips entries that
are not dicts. -/
inductive BatchItem where
  | notDict
  | item (f : BatchFields)
deriving DecidableEq

/-- `if not data_dict.get("target_row") and explicit_row: ...` — fill a
falsy target row from the row number parsed out of the user message. -/
def effective_target_row (explicitRow : Option Int) (f : BatchFields) :
    Option Int :=
  if f.targetRow = Option.none ∨ f.targetRow = some 0 then
    match explicitRow with
    | some e => if e = 0 then f.targetRow else some e
    | Option.none => f.targetRow
  else f.targetRow

/-- The `missing` list computed for one batch item (in source order:
单价, 含税, 含运, 货期, 行号/物料名称). -/
def missing_fields (required : List String) (targetRow : Option Int)
    (f : BatchFields) : List String :=
  (if "单价" ∈ required ∧ f.price = Option.none then ["单价"] else []) ++
  (if "含税" ∈ required ∧ ¬ f.taxPresent then ["含税"] else []) ++
  (if "含运" ∈ required ∧ ¬ f.shippingPresent then ["含运"] else []) ++
  (if "货期" ∈ required ∧
      (f.deliveryTime = Option.none ∨ f.deliveryTime = some "") then ["货期"]
   else []) ++
  (if targetRow = Option.none ∨ targetRow = some 0 then ["行号/物料名称"]
   else [])

/-- The `lookup_supplier` enrichment: when the item has a lookup name and no
supplier yet, `MOCK_SUPPLIERS` (modelled by the `lookup` parameter, already
formatted to the final cell string) may fill the supplier. -/
def apply_supplier_lookup (lookup : String → Option String)
    (f : BatchFields) : BatchFields :=
  match f.lookupSupplier with
  | some nm =>
    if nm ≠ "" ∧ (f.supplier = Option.none ∨ f.supplier = some "") then
      match lookup (py_strip nm) with
      | some s => if s ≠ "" then { f with supplier := some s } else f
      | Option.none => f
    else f
  | Option.none => f

/-- `UpdateAction(**cleaned)`: pydantic defaults fill absent keys. -/
def mk_update_action (f : BatchFields) (targetRow : Option Int) :
    UpdateAction :=
  { targetRow := targetRow.getD 0
    price := f.price.getD 0
    tax := if f.taxPresent then f.taxVal else false
    shipping := if f.shippingPresent then f.shippingVal
      else some (ShipVal.bool false)
    deliveryTime := f.deliveryTime.getD ""
    offerBrand := f.offerBrand
    supplier := f.supplier
    remarks := f.remarks
    quotedModel := f.quotedModel
    quotedSpec := f.quotedSpec }

/-- Outcome of the batch branch.  `typeError` models the unhandled
`TypeError` raised at `process_update(current_sheet, update_action, db,
user_id=current_user.id)`: `excel_core.process_update` accepts only
`(sheet_data, action, db=None)`, so the interpreter rejects the `user_id`
keyword before the engine body runs, and no `try/except` encloses the
loop.  `write` models the post-loop success response; it is kept because
the source lines exist, though no execution reaches them with a non-empty
`updated_rows`. -/
inductive BatchResult where
  | ask (content : String)
  | write (rows : List Int) (sheet : List (List Cell))
  | typeError
deriving DecidableEq

def join_comma : List String → String
  | [] => ""
  | [s] => s
  | s :: rest => s ++ ", " ++ join_comma rest

/-- The `for item in updates[:50]` loop body of the chat endpoint's batch
branch: non-dict items are skipped via `continue`; an item with missing
required fields makes the whole request return ASK at once.  An item that
passes validation reaches
`process_update(current_sheet, update_action, db, user_id=current_user.id)`
— a call that raises `TypeError` (the engine accepts no `user_id`
keyword), aborting the request before the engine body, the row append,
or any later item; the supplier-lookup enrichment and `UpdateAction`
construction that precede the call have no observable effect. -/
def process_updates_batch (required : List String) (explicitRow : Option Int)
    (lookup : String → Option String) :
    List BatchItem → List (List Cell) → List Int → BatchResult
  | [], sheet, rows =>
    if rows = [] then BatchResult.ask "更新列表中没有可执行的更新项"
    else BatchResult.write rows sheet
  | BatchItem.notDict :: rest, sheet, rows =>
    process_updates_batch required explicitRow lookup rest sheet rows
  | BatchItem.item f :: _, _, _ =>
    let r := effective_target_row explicitRow f
    let missing := missing_fields required r f
    if missing ≠ [] then
      BatchResult.ask ("请补充：" ++ join_comma missing)
    else
      BatchResult.typeError

/-- The `updates` branch of the chat endpoint: an empty list is rejected
up front, then the batch loop runs over at most 50 items. -/
def chat_write_updates (required : List String) (explicitRow : Option Int)
    (lookup : String → Option String) (updates : List BatchItem)
    (sheet : List (List Cell)) : BatchResult :=
  if updates = [] then BatchResult.ask "LLM未返回可执行的更新列表"
  else process_updates_batch required explicitRow lookup (updates.take 50)
    sheet []

/-! ## Two-stage agent loop (`agent_runtime.py`) -/
/-- A parsed planner decision (`_safe_json_loads` output shape): `unknown`
covers unparsable JSON and unrecognized actions alike. -/
inductive PlannerDecision (Args Draft : Type) where
  | ask (content : Option String)
  | callTool (name : Option String) (args : Args)
  | done (draft : Option Draft)
  | unknown

/-- A parsed writer decision. -/
inductive WriterDecision (WData : Type) where
  | ask (content : Option String)
  | write (updates : Option (List WData)) (data : Option WData)
  | unknown

/-- How the planner loop ends.  Both exits also record the accumulated
`tool_results` list (the loop's local variable), used below to count tool
invocations. -/
inductive LoopExit (ToolRes Draft : Type) where
  | earlyAsk (content : Option String) (results : List ToolRes)
  | toWriter (draft : Option Draft) (results : List ToolRes)

def LoopExit.results {ToolRes Draft : Type} :
    LoopExit ToolRes Draft → List ToolRes
  | LoopExit.earlyAsk _ r => r
  | LoopExit.toWriter _ r => r

/-- The `for _ in range(max_tool_steps + 1)` planner loop of
`run_two_stage_agent`; the planner oracle is a function of the accumulated
tool results (the only part of its prompt that changes between
iterations).  When the iterations run out without a DONE, the loop falls
through to the writer with the draft still empty (`Option.none`). -/
def planner_loop {Args ToolRes Draft : Type}
    (planner : List ToolRes → PlannerDecision Args Draft)
    (tools : String → Args → ToolRes) :
    Nat → List ToolRes → LoopExit ToolRes Draft
  | 0, acc => LoopExit.toWriter Option.none acc
  | fuel + 1, acc =>
    match planner acc with
    | PlannerDecision.ask c => LoopExit.earlyAsk c acc
    | PlannerDecision.callTool nm args =>
      match nm with
      | some s =>
        if py_strip s = "" then
          LoopExit.earlyAsk (some "Planner未提供有效的tool名称") acc
        else
          planner_loop planner tools fuel (acc ++ [tools (py_strip s) args])
      | Option.none => LoopExit.earlyAsk (some "Planner未提供有效的tool名称") acc
    | PlannerDecision.done d => LoopExit.toWriter d acc
    | PlannerDecision.unknown =>
      LoopExit.earlyAsk (some "Planner返回了未知指令") acc

inductive AgentResult (ToolRes Draft WData : Type) where
  | ask (content : Option String)
  | writeUpdates (updates : List WData) (draft : Option Draft)
      (results : List ToolRes)
  | writeData (data : Option WData) (draft : Option Draft)
      (results : List ToolRes)

/-- `run_two_stage_agent` from `agent_runtime.py`: bounded planner loop,
then one writer call over the draft and all tool results. -/
def run_two_stage_agent {Args ToolRes Draft WData : Type}
    (planner : List ToolRes → PlannerDecision Args Draft)
    (writer : List ToolRes → Option Draft → WriterDecision WData)
    (tools : String → Args → ToolRes) (maxToolSteps : Nat) :
    AgentResult ToolRes Draft WData :=
  match planner_loop planner tools (maxToolSteps + 1) [] with
  | LoopExit.earlyAsk c _ => AgentResult.ask c
  | LoopExit.toWriter d results =>
    match writer results d with
    | WriterDecision.ask c => AgentResult.ask c
    | WriterDecision.write (some updates) _ =>
      AgentResult.writeUpdates updates d results
    | WriterDecision.write Option.none data =>
      AgentResult.writeData data d results
    | WriterDecision.unknown => AgentResult.ask (some "Writer返回了未知指令")

def exActionRow0 : UpdateAction :=
  { targetRow := 0, price := 150, tax := true,
    shipping := some (ShipVal.bool true), deliveryTime := "3天" }

/-! ## C10: `target_row = 1` writes into the header row -/
def exActionRow1 : UpdateAction :=
  { targetRow := 1, price := 77, tax := true,
    shipping := some (ShipVal.bool true), deliveryTime := "3天",
    supplier := some "新供应商" }

/-! ## C6: the tool-step bound of the agent loop -/
def alwaysCallPlanner : List Unit → PlannerDecision Unit Unit :=
  fun _ => PlannerDecision.callTool (some "t") ()

def unitTool : String → Unit → Unit := fun _ _ => ()

/-! ## C4: batch validation aborts, it does not skip -/
def exRequired : List String := ["单价", "含税", "含运", "货期"]

def exValidFields : BatchFields :=
  { targetRow := some 2, price := some 100, taxPresent := true,
    taxVal := true, shippingPresent := true,
    shippingVal := some (ShipVal.bool true), deliveryTime := some "3天",
    supplier := Option.none, remarks := Option.none,
    offerBrand := Option.none, quotedModel := Option.none,
    quotedSpec := Option.none, lookupSupplier := Option.none }

def exInvalidFields : BatchFields :=
  { exValidFields with deliveryTime := Option.none }

def noLookup : String → Option String := fun _ => Option.none

/-! ## C5: the ambiguity rule -/
/-- The claim's wording of "weak criteria": only a name of at most 2
normalized characters with no brand, or a brand with no name, and no model
or spec criterion. -/
def claim_weak_criteria (qn qb qm qs : String) : Prop :=
  (qm = "" ∧ qs = "") ∧
    ((qn ≠ "" ∧ qn.length ≤ 2 ∧ qb = "") ∨ (qb ≠ "" ∧ qn = ""))

/-! ## C8: item-column inference order -/
/-- The claim's reading of `_best_header_index`: the first matching column
in column order wins (exact pass first, then containment), with the
synonym list only deciding whether a column matches. -/
def first_match_column (headers : List Cell) (candidates : List String) :
    Option Nat :=
  let normHeaders := headers.map normalize_cell
  let candidateNorm := candidates.map normalize_header
  match find_col (fun h => !(h == "") &&
      candidateNorm.any (fun c => h == c)) normHeaders 0 with
  | some i => some i
  | Option.none =>
    find_col (fun h => !(h == "") &&
      candidateNorm.any (fun c => !(c == "") && (py_in c h || py_in h c)))
      normHeaders 0

/-- A (candidate, header) index pair that matches under `matchFn` over the
normalized header and candidate lists. -/
def header_cand_match (matchFn : String → String → Bool)
    (nh cn : List String) (ci hi : Nat) : Prop :=
  ci < cn.length ∧ hi < nh.length ∧ nh.getD hi "" ≠ "" ∧
    matchFn (nh.getD hi "") (cn.getD ci "") = true

/-! ## C7: mismatch auto-remarks -/
/-- Number of (possibly overlapping) occurrences of `n` in `h`. -/
def count_sub (n : List Char) : List Char → Nat
  | [] => if n.isEmpty then 1 else 0
  | b :: bs => (if listStarts n (b :: bs) then 1 else 0) + count_sub n bs

/-- Occurrence count of a substring, Python-style. -/
def py_count (n h : String) : Nat := count_sub n.data h.data

def exActionRemark : UpdateAction :=
  { targetRow := 2, price := 150, tax := true,
    shipping := some (ShipVal.bool true), deliveryTime := "3天",
    supplier := some "新供应商", remarks := some "用户备注",
    quotedModel := some "M2" }

/-- Remark cells of slots 1..K of a sheet's row. -/
def slot_remarks (sheet : List (List Cell)) (rowIdx0 : Nat) : List Cell :=
  (slot_numbers_of (build_sheet_schema sheet)).map (fun n =>
    (get_slot_values (sheet.getD rowIdx0 []) (build_sheet_schema sheet)
      n).remark)

/-- The column index of field `f` in slot `n` under the positional schema. -/
def slot_col (n : Nat) (f : SlotField) : Nat :=
  5 + 7 * (n - 1) + SLOT_FIELDS.indexOf f

/-- Price comparison with the absent/unparseable sentinel sorting last. -/
def opt_price_le (x y : Option Rat) : Prop :=
  match x, y with
  | some p, some q => p ≤ q
  | some _, Option.none => True
  | Option.none, some _ => False
  | Option.none, Option.none => True

instance : IsTotal (Rat × Nat × Offer) offer_key_le := by
  constructor
  intro a b
  unfold offer_key_le
  rcases lt_trichotomy a.1 b.1 with h | h | h
  · exact Or.inl (Or.inl h)
  · rcases Nat.le_total a.2.1 b.2.1 with h2 | h2
    · exact Or.inl (Or.inr ⟨h, h2⟩)
    · exact Or.inr (Or.inr ⟨h.symm, h2⟩)
  · exact Or.inr (Or.inl h)

instance : IsTrans (Rat × Nat × Offer) offer_key_le := by
  constructor
  intro a b c hab hbc
  unfold offer_key_le at hab hbc ⊢
  rcases hab with h1 | ⟨h1, h1n⟩
  · rcases hbc with h2 | ⟨h2, h2n⟩
    · exact Or.inl (h1.trans h2)
    · exact Or.inl (h2 ▸ h1)
  · rcases hbc with h2 | ⟨h2, h2n⟩
    · exact Or.inl (h1 ▸ h2)
    · exact Or.inr ⟨h1.trans h2, h1n.trans h2n⟩

/-- The target row's cells, as `process_update` resolves them. -/
def target_row_cells (sheet : List (List Cell)) (a : UpdateAction) :
    List Cell :=
  sheet.getD (a.targetRow - 1).toNat []

/-- The priced offers of the target row before the update. -/
def sheet_priced (sheet : List (List Cell)) (a : UpdateAction) :
    List (Rat × Nat × Offer) :=
  priced_offers (target_row_cells sheet a) (build_sheet_schema sheet)
    (slot_numbers_of (build_sheet_schema sheet))

/-- The new offer inserted into a ranked list of existing offer values. -/
def ranked_insert (sheet : List (List Cell)) (a : UpdateAction)
    (ranked : List (Rat × Nat × Offer)) : List Offer :=
  insert_by_price (the_new_offer sheet a (target_row_cells sheet a)) a.price
    (ranked.map (fun x => x.2.2))

/-- Slot values 1..K of a row, read back through a schema. -/
def target_row_slots (schema : SheetSchema) (sheet : List (List Cell))
    (rowIdx0 : Nat) : List Offer :=
  (slot_numbers_of schema).map (fun n =>
    get_slot_values (sheet.getD rowIdx0 []) schema n)

@[simp] theorem String.data_mkStr (l : List Char) : (String.mk l).data = l := rfl

theorem listStarts_self : ∀ l : List Char, listStarts l l = true := by
  intro l
  induction l with
  | nil => rfl
  | cons a as ih => simp [listStarts, ih]

theorem listSub_self (l : List Char) : listSub l l = true := by
  cases l with
  | nil => rfl
  | cons b bs => simp [listSub, listStarts_self]

theorem listSub_append_left (n xs ys : List Char) (h : listSub n ys = true) :
    listSub n (xs ++ ys) = true := by
  induction xs with
  | nil => simpa using h
  | cons a as ih => simp [listSub, ih]

/-- A string is a Python-substring of itself. -/
theorem py_in_self (s : String) : py_in s s = true := listSub_self s.data

/-- A string is a Python-substring of anything it ends. -/
theorem py_in_append_right (x s : String) : py_in s (x ++ s) = true := by
  have h : (x ++ s).data = x.data ++ s.data := by
    simp
  unfold py_in
  rw [h]
  exact listSub_append_left _ _ _ (listSub_self _)

theorem parse_float_num_ok : (parse_float "100").isSome = true := by decide

theorem parse_float_empty : parse_float "" = Option.none := by decide

theorem parse_float_alpha : parse_float "abc" = Option.none := by decide

/-- Closed form of the slot-building loop: starting at slot `s` and column
`c`, with enough fuel it yields one slot per full 7-column block left of
`L`. -/
theorem build_slots_aux_closed (fuel : Nat) :
    ∀ s c L, L - c ≤ 7 * fuel →
      build_slots_aux fuel s c L =
        (List.range ((L - c) / 7)).map
          (fun j => (s + j, mk_slot_mapping (c + 7 * j))) := by
  induction fuel with
  | zero =>
    intro s c L h
    have h0 : (L - c) / 7 = 0 := by omega
    simp [build_slots_aux, h0]
  | succ n ih =>
    intro s c L h
    rw [build_slots_aux]
    by_cases h7 : c + 7 ≤ L
    · have hdiv : (L - c) / 7 = (L - (c + 7)) / 7 + 1 := by omega
      rw [if_pos h7, hdiv, List.range_succ_eq_map, List.map_cons,
        List.map_map, ih (s + 1) (c + 7) L (by omega)]
      have hfun : (fun j => (s + 1 + j, mk_slot_mapping (c + 7 + 7 * j))) =
          ((fun j => (s + j, mk_slot_mapping (c + 7 * j))) ∘ Nat.succ) := by
        funext j
        have h1 : s + 1 + j = s + Nat.succ j := by omega
        have h2 : c + 7 + 7 * j = c + 7 * Nat.succ j := by omega
        simp [Function.comp, h1, h2]
      rw [hfun]
      simp
    · have h0 : (L - c) / 7 = 0 := by omega
      simp [h7, h0]

/-- The claim's first example: slots priced [100, absent, 200] updated with a
150-priced offer yield [100, 150, 200]. -/
theorem example_gap_compaction :
    slot_prices (process_update exSheetGap exAction150) 1 =
      [some 100, some 150, some 200] := by decide

/-- The claim's second example: a full row [100, 150, 200] updated with 120
yields [100, 120, 150], evicting the 200 offer. -/
theorem example_eviction :
    slot_prices (process_update exSheetFull exAction120) 1 =
      [some 100, some 120, some 150] := by decide

/-- Two rows sharing a brand, queried by brand alone: ambiguous. -/
theorem example_brand_ambiguous :
    (locate_rows_by_criteria brandSheet Option.none (some "西门子")
      Option.none Option.none 5 3000).ambiguous = true := by decide

/-- Two rows sharing a model, queried by model: not flagged ambiguous. -/
theorem example_model_not_ambiguous :
    (locate_rows_by_criteria modelSheet Option.none Option.none (some "MX")
      Option.none 5 3000).ambiguous = false := by decide

/-- The model query still returns both matching rows as candidates. -/
theorem example_model_two_candidates :
    ((locate_rows_by_criteria modelSheet Option.none Option.none (some "MX")
      Option.none 5 3000).candidates.map Candidate.row) = [2, 3] := by decide

/-! ## Helper lemmas about `process_update` control flow -/
theorem slot_numbers_of_length (schema : SheetSchema) :
    (slot_numbers_of schema).length = schema.slots.length := by
  unfold slot_numbers_of
  rw [(List.perm_insertionSort _ _).length_eq, List.length_map]

theorem slot_numbers_of_isEmpty (schema : SheetSchema)
    (h : schema.slots.isEmpty = false) :
    (slot_numbers_of schema).isEmpty = false := by
  have hlen := slot_numbers_of_length schema
  cases hsn : slot_numbers_of schema with
  | cons x xs => rfl
  | nil =>
    exfalso
    rw [hsn] at hlen
    cases hsl : schema.slots with
    | nil => rw [hsl] at h; simp [List.isEmpty] at h
    | cons y ys => rw [hsl] at hlen; simp at hlen

/-- In-range, slot-bearing calls reach the write phase. -/
theorem process_update_in_range (sheet : List (List Cell)) (a : UpdateAction)
    (h1 : 1 ≤ a.targetRow) (h2 : a.targetRow ≤ (sheet.length : Int))
    (h3 : (build_sheet_schema sheet).slots.isEmpty = false) :
    process_update sheet a =
      sheet.set (a.targetRow - 1).toNat
        (update_row sheet a (sheet.getD (a.targetRow - 1).toNat [])) := by
  unfold process_update
  have hc : ¬ (a.targetRow - 1 < 0 ∨ (sheet.length : Int) ≤ a.targetRow - 1) := by
    omega
  rw [if_neg hc, if_neg (by simp [h3]),
    if_neg (by simp [slot_numbers_of_isEmpty _ h3])]

/-! ## C9: out-of-range target rows are a silent no-op -/
/-- C9.  For every sheet and update action whose `target_row` is at most 0
or greater than the sheet's row count, `process_update` returns the sheet
unchanged: no cell is modified (the early-return branch fires before any
write). -/
theorem c9_out_of_range_noop (sheet : List (List Cell)) (a : UpdateAction)
    (h : a.targetRow ≤ 0 ∨ (sheet.length : Int) < a.targetRow) :
    process_update sheet a = sheet := by
  unfold process_update
  have hc : a.targetRow - 1 < 0 ∨ (sheet.length : Int) ≤ a.targetRow - 1 := by
    omega
  rw [if_pos hc]

theorem c9_out_of_range_noop_witness :
    ((0 : Int) ≤ 0 ∨ (exSheetGap.length : Int) < 0) ∧
      process_update exSheetGap exActionRow0 = exSheetGap :=
  ⟨Or.inl (by decide),
    c9_out_of_range_noop exSheetGap exActionRow0 (Or.inl (by decide))⟩

/-- C10.  `process_update` treats `target_row = 1` as in range: on a
non-empty sheet with at least one detected slot it rewrites row index 0 —
the header row — through the ordinary write phase (first conjunct), and on a
concrete sheet the header cell at the slot-1 price column is overwritten
with the offer's price (remaining conjuncts; the data row is untouched).
The silent unchanged-sheet branch fires only for `target_row ≤ 0` or
`target_row > len(sheet)`. -/
theorem c10_header_row_is_writable :
    (∀ (sheet : List (List Cell)) (a : UpdateAction),
      a.targetRow = 1 → 0 < sheet.length →
      (build_sheet_schema sheet).slots.isEmpty = false →
      process_update sheet a =
        sheet.set 0 (update_row sheet a (sheet.getD 0 []))) ∧
    get_cell ((process_update exSheetGap exActionRow1).getD 0 []) 6 =
      Cell.num 77 ∧
    get_cell (exSheetGap.getD 0 []) 6 = Cell.str "单价1" ∧
    (process_update exSheetGap exActionRow1).getD 1 [] = exRowGap := by
  refine ⟨?_, by decide, by decide, by decide⟩
  intro sheet a h1 h2 h3
  have := process_update_in_range sheet a (by omega) (by omega) h3
  rw [h1] at this
  simpa using this

theorem c10_header_row_is_writable_witness :
    exActionRow1.targetRow = 1 ∧ 0 < exSheetGap.length ∧
      (build_sheet_schema exSheetGap).slots.isEmpty = false ∧
      process_update exSheetGap exActionRow1 =
        exSheetGap.set 0 (update_row exSheetGap exActionRow1
          (exSheetGap.getD 0 [])) :=
  ⟨by decide, by decide, by decide,
    c10_header_row_is_writable.1 exSheetGap exActionRow1 (by decide)
      (by decide) (by decide)⟩

/-- C6 counterexample.  With `max_tool_steps = 1`, an oracle that always
answers CALL_TOOL gets two tools executed: the loop runs
`max_tool_steps + 1` iterations, so the claimed bound of at most
`max_tool_steps` tool invocations is false. -/
theorem c6_counterexample_bound_exceeded :
    (planner_loop alwaysCallPlanner unitTool (1 + 1)
        []).results.length = 2 ∧
      ¬ ((planner_loop alwaysCallPlanner unitTool (1 + 1)
        []).results.length ≤ 1) := by
  constructor
  · rfl
  · intro h
    simp [planner_loop, alwaysCallPlanner, unitTool, py_strip,
      LoopExit.results] at h

theorem planner_loop_results_length {Args ToolRes Draft : Type}
    (planner : List ToolRes → PlannerDecision Args Draft)
    (tools : String → Args → ToolRes) :
    ∀ (fuel : Nat) (acc : List ToolRes),
      (planner_loop planner tools fuel acc).results.length ≤
        acc.length + fuel := by
  intro fuel
  induction fuel with
  | zero => intro acc; simp [planner_loop, LoopExit.results]
  | succ n ih =>
    intro acc
    rw [planner_loop]
    cases planner acc with
    | ask c => simp [LoopExit.results]
    | done d => simp [LoopExit.results]
    | unknown => simp [LoopExit.results]
    | callTool nm args =>
      cases nm with
      | none => simp [LoopExit.results]
      | some s =>
        by_cases hs : py_strip s = ""
        · simp [hs, LoopExit.results]
        · have := ih (acc ++ [tools (py_strip s) args])
          simp [hs] at this ⊢
          omega

/-- C6, amended.  `run_two_stage_agent` executes at most
`max_tool_steps + 1` (not `max_tool_steps`) tool invocations per user
message — the loop body runs `range(max_tool_steps + 1)` times and each
iteration executes at most one tool (first conjunct, stated for every
starting accumulator).  When the iterations are exhausted without a DONE
decision — e.g. an oracle that always answers CALL_TOOL — the loop
proceeds to the writer phase with the empty draft instead of failing
(second conjunct). -/
theorem c6_tool_step_bound :
    (∀ (Args ToolRes Draft : Type)
      (planner : List ToolRes → PlannerDecision Args Draft)
      (tools : String → Args → ToolRes) (maxToolSteps : Nat),
      (planner_loop planner tools (maxToolSteps + 1) []).results.length ≤
        maxToolSteps + 1) ∧
    (∀ (Args ToolRes Draft : Type)
      (planner : List ToolRes → PlannerDecision Args Draft)
      (tools : String → Args → ToolRes) (fuel : Nat) (acc : List ToolRes),
      (∀ res, ∃ s args, planner res = PlannerDecision.callTool (some s) args ∧
        py_strip s ≠ "") →
      ∃ results, planner_loop planner tools fuel acc =
        LoopExit.toWriter Option.none results) := by
  constructor
  · intro Args ToolRes Draft planner tools maxToolSteps
    have := planner_loop_results_length planner tools (maxToolSteps + 1) []
    simpa using this
  · intro Args ToolRes Draft planner tools fuel
    induction fuel with
    | zero => intro acc h; exact ⟨acc, rfl⟩
    | succ n ih =>
      intro acc h
      obtain ⟨s, args, heq, hs⟩ := h acc
      rw [planner_loop, heq]
      simpa [hs] using ih (acc ++ [tools (py_strip s) args]) h

theorem c6_tool_step_bound_witness :
    (∀ res : List Unit, ∃ s args,
      alwaysCallPlanner res = PlannerDecision.callTool (some s) args ∧
        py_strip s ≠ "") ∧
    ∃ results, planner_loop alwaysCallPlanner unitTool 2 [] =
      LoopExit.toWriter Option.none results :=
  ⟨fun _ => ⟨"t", (), rfl, by decide⟩,
    c6_tool_step_bound.2 Unit Unit Unit alwaysCallPlanner unitTool 2 []
      (fun _ => ⟨"t", (), rfl, by decide⟩)⟩

/-- C4 counterexample.  The claim says invalid items are skipped and the
valid ones applied.  In the program neither happens: a batch holding one
valid item crashes with an unhandled `TypeError` at the engine call (the
endpoint passes a `user_id` keyword that `excel_core.process_update` does
not accept) even though the item passes validation (second conjunct);
with `[invalid, valid]` the invalid item aborts the whole batch with ASK
before the valid one is looked at (third conjunct); and with
`[valid, invalid]` the crash happens before the invalid item is looked at
(fourth conjunct). -/
theorem c4_counterexample_abort_not_skip :
    chat_write_updates exRequired Option.none noLookup
        [BatchItem.item exValidFields] exSheetFull = BatchResult.typeError ∧
      missing_fields exRequired
        (effective_target_row Option.none exValidFields) exValidFields = [] ∧
      chat_write_updates exRequired Option.none noLookup
        [BatchItem.item exInvalidFields, BatchItem.item exValidFields]
        exSheetFull = BatchResult.ask "请补充：货期" ∧
      chat_write_updates exRequired Option.none noLookup
        [BatchItem.item exValidFields, BatchItem.item exInvalidFields]
        exSheetFull = BatchResult.typeError := by
  refine ⟨by decide, by decide, by decide, by decide⟩

theorem process_updates_batch_no_write (required : List String)
    (explicitRow : Option Int) (lookup : String → Option String) :
    ∀ (items : List BatchItem) (sheet : List (List Cell))
      (rows2 : List Int) (sheet2 : List (List Cell)),
      process_updates_batch required explicitRow lookup items sheet [] ≠
        BatchResult.write rows2 sheet2 := by
  intro items
  induction items with
  | nil =>
    intro sheet rows2 sheet2
    rw [process_updates_batch]
    simp
  | cons it rest ih =>
    intro sheet rows2 sheet2
    cases it with
    | notDict =>
      rw [process_updates_batch]
      exact ih sheet rows2 sheet2
    | item f =>
      rw [process_updates_batch]
      split_ifs <;> simp

/-- C4, amended.  Items that are not dict objects are skipped silently
(first conjunct).  A dict item that fails required-field validation aborts
the remainder of the batch immediately, answering ASK with that item's
missing fields, however many usable items follow (second conjunct).  A
dict item that passes validation also aborts the batch, with an unhandled
`TypeError`: the endpoint calls the slot-ranking engine with a `user_id`
keyword argument its signature does not accept, so the engine is never
successfully invoked from this branch (third conjunct) and no batch is
ever answered WRITE (fifth conjunct).  The zero-usable ASK is returned
exactly when every item was a non-dict (fourth conjunct); the empty
updates list is rejected up front with its own ASK (sixth conjunct). -/
theorem c4_batch_validation :
    (∀ (required : List String) (explicitRow : Option Int)
      (lookup : String → Option String) (rest : List BatchItem)
      (sheet : List (List Cell)) (rows : List Int),
      process_updates_batch required explicitRow lookup
          (BatchItem.notDict :: rest) sheet rows =
        process_updates_batch required explicitRow lookup rest sheet rows) ∧
    (∀ (required : List String) (explicitRow : Option Int)
      (lookup : String → Option String) (f : BatchFields)
      (rest : List BatchItem) (sheet : List (List Cell)) (rows : List Int),
      missing_fields required (effective_target_row explicitRow f) f ≠ [] →
      process_updates_batch required explicitRow lookup
          (BatchItem.item f :: rest) sheet rows =
        BatchResult.ask ("请补充：" ++ join_comma
          (missing_fields required (effective_target_row explicitRow f) f))) ∧
    (∀ (required : List String) (explicitRow : Option Int)
      (lookup : String → Option String) (f : BatchFields)
      (rest : List BatchItem) (sheet : List (List Cell)) (rows : List Int),
      missing_fields required (effective_target_row explicitRow f) f = [] →
      process_updates_batch required explicitRow lookup
          (BatchItem.item f :: rest) sheet rows = BatchResult.typeError) ∧
    (∀ (required : List String) (explicitRow : Option Int)
      (lookup : String → Option String) (items : List BatchItem)
      (sheet : List (List Cell)),
      (∀ it ∈ items, it = BatchItem.notDict) →
      process_updates_batch required explicitRow lookup items sheet [] =
        BatchResult.ask "更新列表中没有可执行的更新项") ∧
    (∀ (required : List String) (explicitRow : Option Int)
      (lookup : String → Option String) (updates : List BatchItem)
      (sheet : List (List Cell)) (rows2 : List Int)
      (sheet2 : List (List Cell)),
      chat_write_updates required explicitRow lookup updates sheet ≠
        BatchResult.write rows2 sheet2) ∧
    (∀ (required : List String) (explicitRow : Option Int)
      (lookup : String → Option String) (sheet : List (List Cell)),
      chat_write_updates required explicitRow lookup [] sheet =
        BatchResult.ask "LLM未返回可执行的更新列表") := by
  refine ⟨fun _ _ _ _ _ _ => rfl, ?_, ?_, ?_, ?_, fun _ _ _ _ => rfl⟩
  · intro required explicitRow lookup f rest sheet rows hmiss
    rw [process_updates_batch]
    simp [hmiss]
  · intro required explicitRow lookup f rest sheet rows hm
    rw [process_updates_batch]
    simp [hm]
  · intro required explicitRow lookup items
    induction items with
    | nil =>
      intro sheet _
      rw [process_updates_batch]
      simp
    | cons it rest ih =>
      intro sheet hall
      have hit : it = BatchItem.notDict := hall it (List.mem_cons_self _ _)
      subst hit
      rw [process_updates_batch]
      exact ih sheet (fun x hx => hall x (List.mem_cons_of_mem _ hx))
  · intro required explicitRow lookup updates sheet rows2 sheet2
    unfold chat_write_updates
    split_ifs
    · simp
    · exact process_updates_batch_no_write required explicitRow lookup
        (updates.take 50) sheet rows2 sheet2

theorem c4_batch_validation_witness :
    missing_fields exRequired
        (effective_target_row Option.none exValidFields) exValidFields = [] ∧
      process_updates_batch exRequired Option.none noLookup
          [BatchItem.item exValidFields] exSheetFull [] =
        BatchResult.typeError :=
  ⟨by decide, c4_batch_validation.2.2.1 exRequired Option.none noLookup
    exValidFields [] exSheetFull [] (by decide)⟩

theorem weak_only_iff (qn qb qm qs : String) :
    weak_only_of qn qb qm qs = true ↔ claim_weak_criteria qn qb qm qs := by
  unfold weak_only_of claim_weak_criteria
  split_ifs with h1 h2 h3 <;> simp_all
  tauto

theorem scored_rows_nil (qn qb qm qs : String) (cols : ItemColumns)
    (maxScan i : Nat) : scored_rows qn qb qm qs cols maxScan i [] = [] := by
  rfl

theorem sort_scored_length (l : List (Nat × Nat)) :
    (sort_scored l).length = l.length :=
  (List.perm_insertionSort _ _).length_eq

/-- C5.  `locate_rows_by_criteria` returns `ambiguous = true` exactly when
the supplied criteria were weak in the claim's sense and more than one data
row (within the scan window) scored positively — provided at least 2
candidates may be returned (the source default is 5).  The two concrete
conjuncts check the claim's examples: two rows sharing a brand, queried by
brand alone, give `ambiguous = true`; two rows sharing a model, queried by
model, give both candidates with `ambiguous = false`. -/
theorem c5_ambiguity_rule :
    (∀ (sheet : List (List Cell)) (itemName brand model spec : Option String)
      (maxCandidates maxScan : Nat), 2 ≤ maxCandidates →
      ((locate_rows_by_criteria sheet itemName brand model spec maxCandidates
          maxScan).ambiguous = true ↔
        (claim_weak_criteria ((itemName.map normalize_header).getD "")
          ((brand.map normalize_header).getD "")
          ((model.map normalize_header).getD "")
          ((spec.map normalize_header).getD "") ∧
        1 < (scored_rows ((itemName.map normalize_header).getD "")
          ((brand.map normalize_header).getD "")
          ((model.map normalize_header).getD "")
          ((spec.map normalize_header).getD "")
          (infer_item_columns (sheet.headD [])) maxScan 2
          (sheet.drop 1)).length))) ∧
    (locate_rows_by_criteria brandSheet Option.none (some "西门子")
      Option.none Option.none 5 3000).ambiguous = true ∧
    ((locate_rows_by_criteria modelSheet Option.none Option.none (some "MX")
      Option.none 5 3000).candidates.map Candidate.row = [2, 3] ∧
    (locate_rows_by_criteria modelSheet Option.none Option.none (some "MX")
      Option.none 5 3000).ambiguous = false) := by
  refine ⟨?_, by decide, by decide, by decide⟩
  intro sheet itemName brand model spec maxCandidates maxScan hmc
  unfold locate_rows_by_criteria
  by_cases hlen : sheet.length < 2
  · rw [if_pos hlen]
    simp only [Bool.false_eq_true, false_iff]
    rintro ⟨-, hc⟩
    rw [List.drop_eq_nil_of_le (by omega), scored_rows_nil] at hc
    simp at hc
  · rw [if_neg hlen]
    by_cases hq : (itemName.map normalize_header).getD "" = "" ∧
        (brand.map normalize_header).getD "" = "" ∧
        (model.map normalize_header).getD "" = "" ∧
        (spec.map normalize_header).getD "" = ""
    · rw [if_pos hq]
      simp only [Bool.false_eq_true, false_iff]
      rintro ⟨⟨-, hw⟩, -⟩
      rcases hw with ⟨hn, -, -⟩ | ⟨hb, -⟩
      · exact hn hq.1
      · exact hb hq.2.1
    · rw [if_neg hq]
      simp only [Bool.and_eq_true, decide_eq_true_iff]
      rw [weak_only_iff]
      constructor
      · rintro ⟨hw, hlt⟩
        refine ⟨hw, ?_⟩
        rw [List.length_map, List.length_take, sort_scored_length] at hlt
        omega
      · rintro ⟨hw, hlt⟩
        refine ⟨hw, ?_⟩
        rw [List.length_map, List.length_take, sort_scored_length]
        omega

theorem c5_ambiguity_rule_witness :
    2 ≤ 5 ∧
      ((locate_rows_by_criteria brandSheet Option.none (some "西门子")
          Option.none Option.none 5 3000).ambiguous = true ↔
        (claim_weak_criteria ((Option.none.map normalize_header).getD "")
          (((some "西门子").map normalize_header).getD "")
          ((Option.none.map normalize_header).getD "")
          ((Option.none.map normalize_header).getD "") ∧
        1 < (scored_rows ((Option.none.map normalize_header).getD "")
          (((some "西门子").map normalize_header).getD "")
          ((Option.none.map normalize_header).getD "")
          ((Option.none.map normalize_header).getD "")
          (infer_item_columns (brandSheet.headD [])) 3000 2
          (brandSheet.drop 1)).length)) :=
  ⟨by decide, c5_ambiguity_rule.1 brandSheet Option.none (some "西门子")
    Option.none Option.none 5 3000 (by decide)⟩

/-! ## C3: model mismatch zeroing -/
/-- C3 counterexample.  Criteria `model = "ZZZ"`, `spec = "1KW"` on a sheet
whose row has model `"M1"` (no equality or containment either way with the
query) and spec `"1KW"`: the model check zeroes the score, but the spec
check then re-adds 900, so the row IS returned — contradicting the claim
that a model mismatch excludes the row regardless of how the spec field
matches. -/
theorem c3_counterexample_spec_rescues_model_mismatch :
    (locate_rows_by_criteria exSheetGap Option.none Option.none (some "ZZZ")
        (some "1KW") 5 3000).candidates.map Candidate.row = [2] ∧
      (locate_rows_by_criteria exSheetGap Option.none Option.none (some "ZZZ")
        (some "1KW") 5 3000).candidates.map Candidate.score = [900] ∧
      normalize_header "ZZZ" ≠ "" ∧
      col_norm ((exSheetGap.drop 1).getD 0 [])
        (infer_item_columns (exSheetGap.headD [])).model = "M1" ∧
      normalize_header "ZZZ" ≠ "M1" ∧
      py_in (normalize_header "ZZZ") "M1" = false ∧
      py_in "M1" (normalize_header "ZZZ") = false := by
  refine ⟨by decide, by decide, by decide, by decide, by decide, by decide,
    by decide⟩

theorem scored_rows_mem (qn qb qm qs : String) (cols : ItemColumns)
    (maxScan : Nat) :
    ∀ (rows : List (List Cell)) (i : Nat) (p : Nat × Nat),
      p ∈ scored_rows qn qb qm qs cols maxScan i rows →
      ∃ k, k < rows.length ∧ p.1 = i + k ∧
        p.2 = row_score_at qn qb qm qs cols (rows.getD k []) ∧ 0 < p.2 := by
  intro rows
  induction rows with
  | nil =>
    intro i p hp
    rw [scored_rows_nil] at hp
    simp at hp
  | cons r rest ih =>
    intro i p hp
    simp only [scored_rows] at hp
    by_cases hms : maxScan < i
    · simp [hms] at hp
    · rw [if_neg hms] at hp
      by_cases hsc : 0 < row_score_at qn qb qm qs cols r
      · rw [if_pos hsc, List.mem_cons] at hp
        rcases hp with hp | hp
        · exact ⟨0, by simp, by simp [hp], by simp [hp], by simp [hp, hsc]⟩
        · obtain ⟨k, hk, h1, h2, h3⟩ := ih (i + 1) p hp
          exact ⟨k + 1, by simpa using hk, by omega, by simpa using h2, h3⟩
      · rw [if_neg hsc] at hp
        obtain ⟨k, hk, h1, h2, h3⟩ := ih (i + 1) p hp
        exact ⟨k + 1, by simpa using hk, by omega, by simpa using h2, h3⟩

/-- A supplied model that neither equals nor contains nor is contained in
the row's non-empty model cell zeroes the accumulated score. -/
theorem model_step_mismatch (qm mh : String) (s : Nat) (hqm : qm ≠ "")
    (hmh : mh ≠ "") (hne : qm ≠ mh) (h1 : py_in qm mh = false)
    (h2 : py_in mh qm = false) : model_step qm mh s = 0 := by
  unfold model_step
  rw [if_pos ⟨hqm, hmh⟩, if_neg hne, if_neg (by simp [h1, h2])]

/-- Starting from a zeroed score, the spec step leaves it at zero unless a
supplied spec criterion matches the row's non-empty spec cell. -/
theorem spec_step_zero (qm qs sh : String) (hqm : qm ≠ "")
    (hspec : qs = "" ∨ sh = "" ∨
      (qs ≠ sh ∧ py_in qs sh = false ∧ py_in sh qs = false)) :
    spec_step qm qs sh 0 = 0 := by
  unfold spec_step
  rcases hspec with hq | hs | ⟨hne2, h3, h4⟩
  · rw [if_neg (by simp [hq])]
  · rw [if_neg (by simp [hs])]
  · by_cases hqsh : qs ≠ "" ∧ sh ≠ ""
    · rw [if_pos hqsh, if_neg hne2, if_neg (by simp [h3, h4]), if_pos hqm]
    · rw [if_neg hqsh]

/-- C3, amended.  If a model criterion is supplied and a data row's model
cell is non-empty but neither equals nor contains nor is contained in the
query, the row's score is zeroed regardless of its name and brand
contributions, and the row is excluded from the returned candidates —
UNLESS a spec criterion was also supplied and the row's spec cell is
non-empty and matches it (exactly or by containment in either direction),
in which case the spec tier is re-added and the row can still be returned
(see the counterexample theorem).  The hypotheses below state the
model-mismatch and the absence of such a spec rescue for the data row at
0-based position `k` of the data area (1-based sheet row `k + 2`). -/
theorem c3_model_mismatch_disqualifies (sheet : List (List Cell))
    (itemName brand model spec : Option String) (maxCandidates maxScan k : Nat)
    (hqm : (model.map normalize_header).getD "" ≠ "")
    (hmh : col_norm ((sheet.drop 1).getD k [])
      (infer_item_columns (sheet.headD [])).model ≠ "")
    (hne : (model.map normalize_header).getD "" ≠
      col_norm ((sheet.drop 1).getD k [])
        (infer_item_columns (sheet.headD [])).model)
    (h1 : py_in ((model.map normalize_header).getD "")
      (col_norm ((sheet.drop 1).getD k [])
        (infer_item_columns (sheet.headD [])).model) = false)
    (h2 : py_in (col_norm ((sheet.drop 1).getD k [])
      (infer_item_columns (sheet.headD [])).model)
      ((model.map normalize_header).getD "") = false)
    (hspec : (spec.map normalize_header).getD "" = "" ∨
      col_norm ((sheet.drop 1).getD k [])
        (infer_item_columns (sheet.headD [])).spec = "" ∨
      ((spec.map normalize_header).getD "" ≠
          col_norm ((sheet.drop 1).getD k [])
            (infer_item_columns (sheet.headD [])).spec ∧
        py_in ((spec.map normalize_header).getD "")
          (col_norm ((sheet.drop 1).getD k [])
            (infer_item_columns (sheet.headD [])).spec) = false ∧
        py_in (col_norm ((sheet.drop 1).getD k [])
            (infer_item_columns (sheet.headD [])).spec)
          ((spec.map normalize_header).getD "") = false)) :
    (k + 2) ∉ (locate_rows_by_criteria sheet itemName brand model spec
      maxCandidates maxScan).candidates.map Candidate.row := by
  intro hmem
  have hzero : row_score_at ((itemName.map normalize_header).getD "")
      ((brand.map normalize_header).getD "")
      ((model.map normalize_header).getD "")
      ((spec.map normalize_header).getD "")
      (infer_item_columns (sheet.headD [])) ((sheet.drop 1).getD k []) = 0 := by
    unfold row_score_at row_score
    rw [model_step_mismatch _ _ _ hqm hmh hne h1 h2]
    exact spec_step_zero _ _ _ hqm hspec
  unfold locate_rows_by_criteria at hmem
  by_cases hlen : sheet.length < 2
  · rw [if_pos hlen] at hmem
    simp at hmem
  · rw [if_neg hlen] at hmem
    by_cases hq : (itemName.map normalize_header).getD "" = "" ∧
        (brand.map normalize_header).getD "" = "" ∧
        (model.map normalize_header).getD "" = "" ∧
        (spec.map normalize_header).getD "" = ""
    · rw [if_pos hq] at hmem
      simp at hmem
    · rw [if_neg hq] at hmem
      simp only [List.map_map, List.mem_map, Function.comp] at hmem
      obtain ⟨p, hp, hrow⟩ := hmem
      have hp2 : p ∈ sort_scored (scored_rows
          ((itemName.map normalize_header).getD "")
          ((brand.map normalize_header).getD "")
          ((model.map normalize_header).getD "")
          ((spec.map normalize_header).getD "")
          (infer_item_columns (sheet.headD [])) maxScan 2 (sheet.drop 1)) :=
        List.mem_of_mem_take hp
      have hp3 := (List.perm_insertionSort
        (fun a b : Nat × Nat => b.2 ≤ a.2) _).mem_iff.mp hp2
      obtain ⟨j, hjlen, hj1, hj2, hj3⟩ := scored_rows_mem _ _ _ _ _ _ _ _ _ hp3
      have hjk : j = k := by omega
      rw [hjk] at hj2
      rw [hj2, hzero] at hj3
      exact absurd hj3 (by omega)

theorem c3_model_mismatch_disqualifies_witness :
    (((some "ZZZ" : Option String).map normalize_header).getD "" ≠ "") ∧
      ((0 : Nat) + 2 ∉ (locate_rows_by_criteria exSheetGap Option.none
        Option.none (some "ZZZ") (some "9KW") 5 3000).candidates.map
        Candidate.row) :=
  ⟨by decide,
    c3_model_mismatch_disqualifies exSheetGap Option.none Option.none
      (some "ZZZ") (some "9KW") 5 3000 0 (by decide) (by decide) (by decide)
      (by decide) (by decide) (Or.inr (Or.inr ⟨by decide, by decide,
        by decide⟩))⟩

/-- C8 counterexample.  For the brand synonym list `[品牌, 牌, 品牌名称]`
and headers `[牌, 品牌]`, column 0 exactly matches the synonym 牌, so under
the claim's column-order-first rule the result would be column 0; the code
scans synonyms in priority order first and returns column 1 (which exactly
matches the earlier synonym 品牌).  Hence the claim's rule differs from the
code. -/
theorem c8_counterexample_column_order :
    best_header_index [Cell.str "牌", Cell.str "品牌"]
        ITEM_BRAND_COL_SYNONYMS = some 1 ∧
      first_match_column [Cell.str "牌", Cell.str "品牌"]
        ITEM_BRAND_COL_SYNONYMS = some 0 ∧
      ¬ (∀ (headers : List Cell) (cands : List String),
        best_header_index headers cands = first_match_column headers cands) := by
  refine ⟨by decide, by decide, ?_⟩
  intro h
  have := h [Cell.str "牌", Cell.str "品牌"] ITEM_BRAND_COL_SYNONYMS
  revert this
  decide

/-- Soundness of the inner column scan: a hit is the leftmost hit. -/
theorem find_col_some (p : String → Bool) :
    ∀ (l : List String) (i j : Nat), find_col p l i = some j →
      ∃ k, j = i + k ∧ k < l.length ∧ p (l.getD k "") = true ∧
        ∀ m < k, p (l.getD m "") = false := by
  intro l
  induction l with
  | nil => intro i j h; simp [find_col] at h
  | cons x t ih =>
    intro i j h
    rw [find_col] at h
    by_cases hx : p x = true
    · rw [if_pos hx] at h
      have hij : i = j := by simpa using h
      refine ⟨0, by omega, by simp, by simpa using hx,
        fun m hm => absurd hm (by omega)⟩
    · rw [if_neg hx] at h
      obtain ⟨k, h1, h2, h3, h4⟩ := ih (i + 1) j h
      refine ⟨k + 1, by omega, by simpa using h2, by simpa using h3, ?_⟩
      intro m hm
      cases m with
      | zero => simpa using (Bool.eq_false_iff.mpr hx)
      | succ m2 => simpa using h4 m2 (by omega)

/-- Completeness of the inner column scan: no hit means no match at all. -/
theorem find_col_none (p : String → Bool) :
    ∀ (l : List String) (i : Nat), find_col p l i = Option.none →
      ∀ k < l.length, p (l.getD k "") = false := by
  intro l
  induction l with
  | nil => intro i h k hk; simp at hk
  | cons x t ih =>
    intro i h k hk
    rw [find_col] at h
    by_cases hx : p x = true
    · rw [if_pos hx] at h; exact absurd h (by simp)
    · rw [if_neg hx] at h
      cases k with
      | zero => simpa using (Bool.eq_false_iff.mpr hx)
      | succ k2 => simpa using ih (i + 1) h k2 (by simpa using hk)

/-- Soundness of the candidate scan: a hit comes from the
highest-priority candidate that matches any column. -/
theorem scan_candidates_some (matchFn : String → String → Bool)
    (nh : List String) :
    ∀ (cs : List String) (i : Nat), scan_candidates matchFn nh cs = some i →
      ∃ ci, ci < cs.length ∧
        find_col (fun h => !(h == "") && matchFn h (cs.getD ci "")) nh 0 =
          some i ∧
        ∀ cj < ci,
          find_col (fun h => !(h == "") && matchFn h (cs.getD cj "")) nh 0 =
            Option.none := by
  intro cs
  induction cs with
  | nil => intro i h; simp [scan_candidates] at h
  | cons c t ih =>
    intro i h
    rw [scan_candidates] at h
    cases hf : find_col (fun h => !(h == "") && matchFn h c) nh 0 with
    | some j =>
      rw [hf] at h
      refine ⟨0, by simp, ?_, fun cj hcj => absurd hcj (by omega)⟩
      simpa [hf] using h
    | none =>
      rw [hf] at h
      obtain ⟨ci, h1, h2, h3⟩ := ih i h
      refine ⟨ci + 1, by simpa using h1, by simpa using h2, ?_⟩
      intro cj hcj
      cases cj with
      | zero => simpa using hf
      | succ cj2 => simpa using h3 cj2 (by omega)

/-- Completeness of the candidate scan. -/
theorem scan_candidates_none (matchFn : String → String → Bool)
    (nh : List String) :
    ∀ (cs : List String), scan_candidates matchFn nh cs = Option.none →
      ∀ ci < cs.length,
        find_col (fun h => !(h == "") && matchFn h (cs.getD ci "")) nh 0 =
          Option.none := by
  intro cs
  induction cs with
  | nil => intro h ci hci; simp at hci
  | cons c t ih =>
    intro h ci hci
    rw [scan_candidates] at h
    cases hf : find_col (fun h => !(h == "") && matchFn h c) nh 0 with
    | some j => rw [hf] at h; exact absurd h (by simp)
    | none =>
      rw [hf] at h
      cases ci with
      | zero => simpa using hf
      | succ ci2 => simpa using ih h ci2 (by simpa using hci)

/-- The candidate scan never misses: if some (candidate, column) pair
matches, it returns a column. -/
theorem scan_candidates_not_none (matchFn : String → String → Bool)
    (nh cs : List String) (ci hi : Nat) (hci : ci < cs.length)
    (hhi : hi < nh.length) (hne : nh.getD hi "" ≠ "")
    (hm : matchFn (nh.getD hi "") (cs.getD ci "") = true) :
    scan_candidates matchFn nh cs ≠ Option.none := by
  intro h
  have := find_col_none _ nh 0 (scan_candidates_none matchFn nh cs h ci hci)
    hi hhi
  rw [Bool.and_eq_false_iff] at this
  rcases this with h1 | h1
  · simp at h1
    exact hne (by simpa [List.getD] using h1)
  · rw [hm] at h1
    exact absurd h1 (by simp)

/-- A scan hit is a match that is lexicographically minimal in
(candidate priority, column index) order. -/
theorem scan_candidates_min (matchFn : String → String → Bool)
    (nh cn : List String) (i : Nat)
    (h : scan_candidates matchFn nh cn = some i) :
    ∃ ci, header_cand_match matchFn nh cn ci i ∧
      ∀ cj hj, header_cand_match matchFn nh cn cj hj →
        ci < cj ∨ (ci = cj ∧ i ≤ hj) := by
  obtain ⟨ci, hci, hfind, hprev⟩ := scan_candidates_some matchFn nh cn i h
  obtain ⟨k, hk0, hklen, hpk, hmin⟩ := find_col_some _ nh 0 i hfind
  have hki : k = i := by omega
  subst hki
  rw [Bool.and_eq_true] at hpk
  refine ⟨ci, ⟨hci, hklen, by simpa using hpk.1, hpk.2⟩, ?_⟩
  intro cj hj hm
  obtain ⟨hcj, hhj, hne, hmf⟩ := hm
  by_cases hlt : cj < ci
  · exfalso
    have := find_col_none _ nh 0 (hprev cj hlt) hj hhj
    rw [Bool.and_eq_false_iff] at this
    rcases this with h1 | h1
    · simp at h1
      exact hne (by simpa [List.getD] using h1)
    · rw [hmf] at h1
      exact absurd h1 (by simp)
  · by_cases heq : ci = cj
    · right
      refine ⟨heq, ?_⟩
      by_contra hij
      have hji : hj < k := by omega
      have := hmin hj hji
      rw [← heq] at hmf
      rw [Bool.and_eq_false_iff] at this
      rcases this with h1 | h1
      · simp at h1
        exact hne (by simpa [List.getD] using h1)
      · rw [hmf] at h1
        exact absurd h1 (by simp)
    · left
      omega

/-- A scan miss means nothing matched. -/
theorem scan_candidates_no_match (matchFn : String → String → Bool)
    (nh cn : List String) (h : scan_candidates matchFn nh cn = Option.none) :
    ∀ ci hi, ¬ header_cand_match matchFn nh cn ci hi := by
  intro ci hi hm
  obtain ⟨hci, hhi, hne, hmf⟩ := hm
  exact scan_candidates_not_none matchFn nh cn ci hi hci hhi hne hmf h

/-- C8, amended.  For each semantic role, `_best_header_index` prefers the
exact-match pass over the containment pass; inside a pass the earliest
synonym in priority order wins, and among the columns matching that synonym
the leftmost column wins — synonym priority takes precedence over column
order (the claim's "first matching column in column order wins" fails, see
the counterexample).  Conjuncts: (1) if any exact pair exists the result is
the (synonym, column)-lexicographically least exact pair's column; (2) with
no exact pair but some containment pair, likewise for containment; (3) with
no pair at all, no column is inferred. -/
theorem c8_best_header_index_order (headers : List Cell)
    (cands : List String) :
    ((∃ ci hi, header_cand_match (fun h c => h == c)
        (headers.map normalize_cell) (cands.map normalize_header) ci hi) →
      ∃ ci hi, best_header_index headers cands = some hi ∧
        header_cand_match (fun h c => h == c) (headers.map normalize_cell)
          (cands.map normalize_header) ci hi ∧
        ∀ cj hj, header_cand_match (fun h c => h == c)
          (headers.map normalize_cell) (cands.map normalize_header) cj hj →
          ci < cj ∨ (ci = cj ∧ hi ≤ hj)) ∧
    ((¬ ∃ ci hi, header_cand_match (fun h c => h == c)
        (headers.map normalize_cell) (cands.map normalize_header) ci hi) →
      (∃ ci hi, header_cand_match
        (fun h c => !(c == "") && (py_in c h || py_in h c))
        (headers.map normalize_cell) (cands.map normalize_header) ci hi) →
      ∃ ci hi, best_header_index headers cands = some hi ∧
        header_cand_match (fun h c => !(c == "") && (py_in c h || py_in h c))
          (headers.map normalize_cell) (cands.map normalize_header) ci hi ∧
        ∀ cj hj, header_cand_match
          (fun h c => !(c == "") && (py_in c h || py_in h c))
          (headers.map normalize_cell) (cands.map normalize_header) cj hj →
          ci < cj ∨ (ci = cj ∧ hi ≤ hj)) ∧
    ((¬ ∃ ci hi, header_cand_match (fun h c => h == c)
        (headers.map normalize_cell) (cands.map normalize_header) ci hi) →
      (¬ ∃ ci hi, header_cand_match
        (fun h c => !(c == "") && (py_in c h || py_in h c))
        (headers.map normalize_cell) (cands.map normalize_header) ci hi) →
      best_header_index headers cands = Option.none) := by
  refine ⟨?_, ?_, ?_⟩
  · intro hex
    cases hscan : scan_candidates (fun h c => h == c)
        (headers.map normalize_cell) (cands.map normalize_header) with
    | none =>
      exfalso
      obtain ⟨ci, hi, hm⟩ := hex
      exact scan_candidates_no_match _ _ _ hscan ci hi hm
    | some i =>
      obtain ⟨ci, hm, hmin⟩ := scan_candidates_min _ _ _ _ hscan
      refine ⟨ci, i, ?_, hm, hmin⟩
      simp only [best_header_index, hscan]
  · intro hnoex hcon
    cases hscan : scan_candidates (fun h c => h == c)
        (headers.map normalize_cell) (cands.map normalize_header) with
    | some i =>
      exfalso
      obtain ⟨ci, hm, -⟩ := scan_candidates_min _ _ _ _ hscan
      exact hnoex ⟨ci, i, hm⟩
    | none =>
      cases hscan2 : scan_candidates
          (fun h c => !(c == "") && (py_in c h || py_in h c))
          (headers.map normalize_cell) (cands.map normalize_header) with
      | none =>
        exfalso
        obtain ⟨ci, hi, hm⟩ := hcon
        exact scan_candidates_no_match _ _ _ hscan2 ci hi hm
      | some i =>
        obtain ⟨ci, hm, hmin⟩ := scan_candidates_min _ _ _ _ hscan2
        refine ⟨ci, i, ?_, hm, hmin⟩
        simp only [best_header_index, hscan, hscan2]
  · intro hnoex hnocon
    cases hscan : scan_candidates (fun h c => h == c)
        (headers.map normalize_cell) (cands.map normalize_header) with
    | some i =>
      exfalso
      obtain ⟨ci, hm, -⟩ := scan_candidates_min _ _ _ _ hscan
      exact hnoex ⟨ci, i, hm⟩
    | none =>
      cases hscan2 : scan_candidates
          (fun h c => !(c == "") && (py_in c h || py_in h c))
          (headers.map normalize_cell) (cands.map normalize_header) with
      | some i =>
        exfalso
        obtain ⟨ci, hm, -⟩ := scan_candidates_min _ _ _ _ hscan2
        exact hnocon ⟨ci, i, hm⟩
      | none =>
        simp only [best_header_index, hscan, hscan2]

theorem c8_best_header_index_order_witness :
    (∃ ci hi, header_cand_match (fun h c => h == c)
      ([Cell.str "牌", Cell.str "品牌"].map normalize_cell)
      (ITEM_BRAND_COL_SYNONYMS.map normalize_header) ci hi) ∧
    ∃ ci hi,
      best_header_index [Cell.str "牌", Cell.str "品牌"]
        ITEM_BRAND_COL_SYNONYMS = some hi ∧
      header_cand_match (fun h c => h == c)
        ([Cell.str "牌", Cell.str "品牌"].map normalize_cell)
        (ITEM_BRAND_COL_SYNONYMS.map normalize_header) ci hi ∧
      ∀ cj hj, header_cand_match (fun h c => h == c)
        ([Cell.str "牌", Cell.str "品牌"].map normalize_cell)
        (ITEM_BRAND_COL_SYNONYMS.map normalize_header) cj hj →
        ci < cj ∨ (ci = cj ∧ hi ≤ hj) :=
  ⟨⟨0, 1, by decide, by decide, by decide, by decide⟩,
    (c8_best_header_index_order [Cell.str "牌", Cell.str "品牌"]
      ITEM_BRAND_COL_SYNONYMS).1
      ⟨0, 1, by decide, by decide, by decide, by decide⟩⟩

/-! ## C2: slot block structure and field order -/
/-- Closed form of the schema's slot table: one slot per full 7-column
block after the 5 base columns. -/
theorem build_sheet_schema_slots (sheet : List (List Cell)) :
    (build_sheet_schema sheet).slots =
      (List.range (((build_sheet_schema sheet).headers.length - 5) / 7)).map
        (fun j => (1 + j, mk_slot_mapping (5 + 7 * j))) := by
  unfold build_sheet_schema
  exact build_slots_aux_closed _ 1 5 _ (by omega)

theorem lookup_range_map {α : Type} :
    ∀ (K : Nat) (g : Nat → α) (s n : Nat), s ≤ n → n < s + K →
      (((List.range K).map (fun j => (s + j, g j))).lookup n) =
        some (g (n - s)) := by
  intro K
  induction K with
  | zero => intro g s n h1 h2; exact absurd h2 (by omega)
  | succ K ih =>
    intro g s n h1 h2
    rw [List.range_succ_eq_map, List.map_cons, List.map_map]
    by_cases hn : n = s
    · subst hn
      simp [List.lookup]
    · have hbeq : (n == s + 0) = false := by
        simp
        omega
      rw [List.lookup, hbeq]
      have hfun : ((fun j => (s + j, g j)) ∘ Nat.succ) =
          (fun j => ((s + 1) + j, (fun m => g (m + 1)) j)) := by
        funext j
        simp [Function.comp]
        omega
      rw [hfun, ih (fun m => g (m + 1)) (s + 1) n (by omega) (by omega)]
      have harg : n - (s + 1) + 1 = n - s := by omega
      rw [harg]

/-- Each in-range slot's field dict maps field `f` to column
`5 + 7*(slot-1) + (position of f in SLOT_FIELDS)`. -/
theorem get_slot_index_closed (sheet : List (List Cell)) (n : Nat)
    (f : SlotField) (h1 : 1 ≤ n)
    (h2 : n ≤ ((build_sheet_schema sheet).headers.length - 5) / 7) :
    get_slot_index (build_sheet_schema sheet) n f =
      some (5 + 7 * (n - 1) + SLOT_FIELDS.indexOf f) := by
  unfold get_slot_index
  rw [build_sheet_schema_slots,
    lookup_range_map _ (fun j => mk_slot_mapping (5 + 7 * j)) 1 n h1
      (by omega)]
  simp [mk_slot_mapping]

/-- C2.  The block structure of the claim holds: `build_sheet_schema`
yields exactly `K = (L - 5) / 7` slots numbered contiguously `1..K`, slot
`s` covering columns `5 + 7*(s-1) + 0 .. 6`, and a trailing partial block
forms no slot (first two conjuncts; on the 26-column example sheet: 3
slots).  But the claimed field order is NOT the one the code uses: the
code assigns the seven columns in `SLOT_FIELDS` order 品牌, 单价, 含税,
含运, 货期, 备注, 供应商 (price at offset 1, remark at offset 5), while the
claim — and the repository's own `SLOT_TEMPLATE`, generated `HEADERS`, and
regression tests — put 备注 (remark) at offset 1 and 单价 (price) at
offset 2.  The final conjuncts evaluate the code at the failing input:
slot 1's price column is index 6 and its remark column index 10, where the
claim requires remark at index 6. -/
theorem c2_slot_layout_and_field_order :
    (∀ sheet : List (List Cell), (build_sheet_schema sheet).slots =
      (List.range (((build_sheet_schema sheet).headers.length - 5) / 7)).map
        (fun j => (1 + j, mk_slot_mapping (5 + 7 * j)))) ∧
    (∀ (sheet : List (List Cell)) (n : Nat) (f : SlotField), 1 ≤ n →
      n ≤ ((build_sheet_schema sheet).headers.length - 5) / 7 →
      get_slot_index (build_sheet_schema sheet) n f =
        some (5 + 7 * (n - 1) + SLOT_FIELDS.indexOf f)) ∧
    ((build_sheet_schema exSheetGap).headers.length = 26 ∧
      (build_sheet_schema exSheetGap).slots.length = 3) ∧
    (get_slot_index (build_sheet_schema exSheetGap) 1 SlotField.price =
        some 6 ∧
      get_slot_index (build_sheet_schema exSheetGap) 1 SlotField.remark =
        some 10) ∧
    (SLOT_TEMPLATE.indexOf SlotField.remark = 1 ∧
      SLOT_TEMPLATE.indexOf SlotField.price = 2 ∧
      SLOT_FIELDS.indexOf SlotField.remark = 5 ∧
      SLOT_FIELDS.indexOf SlotField.price = 1 ∧
      SLOT_FIELDS ≠ SLOT_TEMPLATE) := by
  refine ⟨build_sheet_schema_slots, get_slot_index_closed, ⟨?_, ?_⟩, ⟨?_, ?_⟩,
    ?_, ?_, ?_, ?_, ?_⟩ <;> decide

theorem c2_slot_layout_and_field_order_witness :
    (1 : Nat) ≤ 2 ∧
      2 ≤ (((build_sheet_schema exSheetGap).headers.length - 5) / 7) ∧
      get_slot_index (build_sheet_schema exSheetGap) 2 SlotField.supplier =
        some (5 + 7 * (2 - 1) + SLOT_FIELDS.indexOf SlotField.supplier) :=
  ⟨by decide, by decide,
    c2_slot_layout_and_field_order.2.1 exSheetGap 2 SlotField.supplier
      (by decide) (by decide)⟩

/-- A string with a non-whitespace character does not strip to empty. -/
theorem py_strip_ne_empty (s : String) (c : Char) (hc : c ∈ s.data)
    (hw : c.isWhitespace = false) : py_strip s ≠ "" := by
  intro h
  have hdata : (py_strip s).data = [] := by rw [h]
  unfold py_strip at hdata
  rw [String.data_mkStr] at hdata
  have h2 : ((s.data.dropWhile Char.isWhitespace).reverse.dropWhile
      Char.isWhitespace) = [] := by
    simpa using hdata
  rw [List.dropWhile_eq_nil_iff] at h2
  have h3 : ∀ x ∈ s.data.dropWhile Char.isWhitespace, x.isWhitespace := by
    intro x hx
    exact h2 x (List.mem_reverse.mpr hx)
  have h4 : s.data.takeWhile Char.isWhitespace ++
      s.data.dropWhile Char.isWhitespace = s.data :=
    List.takeWhile_append_dropWhile Char.isWhitespace s.data
  rw [← h4, List.mem_append] at hc
  rcases hc with hc | hc
  · have := List.mem_takeWhile_imp hc
    rw [hw] at this
    exact absurd this (by simp)
  · have := h3 c hc
    rw [hw] at this
    exact absurd this (by simp)

/-- C7.  Mismatch auto-remarks: (1) the remark is produced exactly when the
quoted value is a non-blank string, the row value is present, and the two
differ after normalization compared case-insensitively — in particular a
case-only difference produces no remark (conjuncts 1-4, for any label, so
both the model rule and the spec rule); (2) a non-blank user remark is
appended to (kept as a prefix), not replaced (conjunct 5); (3) a remark
already containing the text is left unchanged (conjunct 6); (4) re-merging
the same auto-remark into an already-merged remark changes nothing, so the
text is never duplicated (conjunct 7); (5) applying the same update twice
to the same pre-state leaves the mismatch text exactly once in every
written remark cell of the concrete sheet (conjuncts 8-9). -/
theorem c7_auto_remark_rules :
    (∀ lbl q m : String, (auto_remark lbl (some q) (some m)).isSome = true ↔
      (py_strip q ≠ "" ∧ py_lower (normalize_header (py_strip q)) ≠
        py_lower (normalize_header m))) ∧
    (∀ (lbl : String) (rm : Option String),
      auto_remark lbl Option.none rm = Option.none) ∧
    (∀ lbl q : String, auto_remark lbl (some q) Option.none = Option.none) ∧
    (∀ lbl q m : String, py_lower (normalize_header (py_strip q)) =
        py_lower (normalize_header m) →
      auto_remark lbl (some q) (some m) = Option.none) ∧
    (∀ r t : String, py_strip r ≠ "" → py_in t r = false →
      merge_remark (some r) (some t) = some (py_strip r ++ "；" ++ t) ∧
        py_in t (py_strip r ++ "；" ++ t) = true) ∧
    (∀ r t : String, py_strip r ≠ "" → py_in t r = true →
      merge_remark (some r) (some t) = some r) ∧
    (∀ (r : Option String) (t : String),
      merge_remark (merge_remark r (some t)) (some t) =
        merge_remark r (some t)) ∧
    slot_remarks (process_update (process_update exSheetGap exActionRemark)
        exActionRemark) 1 =
      [Cell.str "备注甲",
        Cell.str "用户备注；型号不一致: 报价(M2) 表内(M1)",
        Cell.str "用户备注；型号不一致: 报价(M2) 表内(M1)"] ∧
    py_count "型号不一致: 报价(M2) 表内(M1)"
      "用户备注；型号不一致: 报价(M2) 表内(M1)" = 1 := by
  refine ⟨?_, fun _ _ => rfl, fun _ _ => rfl, ?_, ?_, ?_, ?_, by decide,
    by decide⟩
  · intro lbl q m
    simp only [auto_remark]
    by_cases hc : py_strip q ≠ "" ∧ py_lower (normalize_header (py_strip q)) ≠
        py_lower (normalize_header m)
    · rw [if_pos hc]
      simpa using hc
    · rw [if_neg hc]
      simpa using hc
  · intro lbl q m hql
    simp only [auto_remark]
    rw [if_neg]
    intro hc
    exact hc.2 hql
  · intro r t hr ht
    simp only [merge_remark]
    rw [if_neg hr, if_neg (by simp [ht])]
    exact ⟨rfl, py_in_append_right (py_strip r ++ "；") t⟩
  · intro r t hr ht
    simp only [merge_remark]
    rw [if_neg hr, if_pos ht]
  · intro r t
    cases r with
    | none =>
      have hinner : merge_remark Option.none (some t) = some t := rfl
      rw [hinner]
      simp only [merge_remark]
      by_cases hts : py_strip t = ""
      · rw [if_pos hts]
      · rw [if_neg hts, if_pos (py_in_self t)]
    | some r0 =>
      by_cases h0 : py_strip r0 = ""
      · have hinner : merge_remark (some r0) (some t) = some t := by
          simp only [merge_remark]
          rw [if_pos h0]
        rw [hinner]
        simp only [merge_remark]
        by_cases hts : py_strip t = ""
        · rw [if_pos hts]
        · rw [if_neg hts, if_pos (py_in_self t)]
      · by_cases hin : py_in t r0 = true
        · have hinner : merge_remark (some r0) (some t) = some r0 := by
            simp only [merge_remark]
            rw [if_neg h0, if_pos hin]
          rw [hinner]
          simp only [merge_remark]
          rw [if_neg h0, if_pos hin]
        · have hinner : merge_remark (some r0) (some t) =
              some (py_strip r0 ++ "；" ++ t) := by
            simp only [merge_remark]
            rw [if_neg h0, if_neg (by simp [hin])]
          rw [hinner]
          simp only [merge_remark]
          have hne : py_strip (py_strip r0 ++ "；" ++ t) ≠ "" := by
            apply py_strip_ne_empty _ '；'
            · have hd : (py_strip r0 ++ "；" ++ t).data =
                  (py_strip r0).data ++ '；' :: t.data := by
                simp
              rw [hd]
              simp
            · decide
          rw [if_neg hne,
            if_pos (py_in_append_right (py_strip r0 ++ "；") t)]

theorem c7_auto_remark_rules_witness :
    (py_lower (normalize_header (py_strip "1kw")) =
        py_lower (normalize_header "1KW")) ∧
      auto_remark "规格不一致" (some "1kw") (some "1KW") = Option.none ∧
      py_strip "用户备注" ≠ "" ∧
      py_in "型号不一致: 报价(M2) 表内(M1)" "用户备注" = false ∧
      merge_remark (some "用户备注")
          (some "型号不一致: 报价(M2) 表内(M1)") =
        some "用户备注；型号不一致: 报价(M2) 表内(M1)" :=
  ⟨by decide,
    c7_auto_remark_rules.2.2.2.1 "规格不一致" "1kw" "1KW" (by decide),
    by decide, by decide,
    ((c7_auto_remark_rules.2.2.2.2.1 "用户备注"
      "型号不一致: 报价(M2) 表内(M1)" (by decide) (by decide)).1)⟩

/-! ## C1: the slot ranking engine -/
theorem get_cell_ensure_row_len (row : List Cell) (n j : Nat) :
    get_cell (ensure_row_len row n) j = get_cell row j := by
  unfold get_cell ensure_row_len
  by_cases hj : j < row.length
  · rw [List.getD_eq_getElem?_getD, List.getD_eq_getElem?_getD,
      List.getElem?_append_left hj]
  · rw [List.getD_eq_getElem?_getD, List.getD_eq_getElem?_getD,
      List.getElem?_append_right (by omega),
      (List.getElem?_eq_none (by omega) : row[j]? = none),
      List.getElem?_replicate]
    split_ifs <;> rfl

theorem length_ensure_row_len (row : List Cell) (n : Nat) :
    n ≤ (ensure_row_len row n).length := by
  unfold ensure_row_len
  simp
  omega

/-- Reading after one cell write. -/
theorem get_cell_set_cell (row : List Cell) (i j : Nat) (v : Cell) :
    get_cell (set_cell row i v) j = if j = i then v else get_cell row j := by
  unfold set_cell
  by_cases hji : j = i
  · subst hji
    rw [if_pos rfl]
    have hlen : j < (ensure_row_len row (j + 1)).length := by
      have := length_ensure_row_len row (j + 1)
      omega
    unfold get_cell
    rw [List.getD_eq_getElem?_getD, List.getElem?_set_self hlen]
    rfl
  · rw [if_neg hji, ← get_cell_ensure_row_len row (i + 1) j]
    unfold get_cell
    rw [List.getD_eq_getElem?_getD, List.getD_eq_getElem?_getD,
      List.getElem?_set_ne (by omega)]

@[simp] theorem indexOf_brand : SLOT_FIELDS.indexOf SlotField.brand = 0 := rfl

@[simp] theorem indexOf_price : SLOT_FIELDS.indexOf SlotField.price = 1 := rfl

@[simp] theorem indexOf_tax : SLOT_FIELDS.indexOf SlotField.tax = 2 := rfl

@[simp] theorem indexOf_shipping :
    SLOT_FIELDS.indexOf SlotField.shipping = 3 := rfl

@[simp] theorem indexOf_leadTime :
    SLOT_FIELDS.indexOf SlotField.leadTime = 4 := rfl

@[simp] theorem indexOf_remark : SLOT_FIELDS.indexOf SlotField.remark = 5 := rfl

@[simp] theorem indexOf_supplier :
    SLOT_FIELDS.indexOf SlotField.supplier = 6 := rfl

theorem indexOf_le_six (f : SlotField) : SLOT_FIELDS.indexOf f ≤ 6 := by
  cases f <;> decide

/-- Writing one slot, written out as the seven cell writes in
`SLOT_TEMPLATE` order. -/
theorem set_slot_values_closed (sheet : List (List Cell)) (row : List Cell)
    (n : Nat) (v : Offer) (h1 : 1 ≤ n)
    (h2 : n ≤ ((build_sheet_schema sheet).headers.length - 5) / 7) :
    set_slot_values row (build_sheet_schema sheet) n v =
      set_cell (set_cell (set_cell (set_cell (set_cell (set_cell (set_cell
        row (slot_col n .brand) v.brand) (slot_col n .remark) v.remark)
        (slot_col n .price) v.price) (slot_col n .tax) v.tax)
        (slot_col n .shipping) v.shipping) (slot_col n .leadTime) v.leadTime)
        (slot_col n .supplier) v.supplier := by
  have hidx : ∀ f, get_slot_index (build_sheet_schema sheet) n f =
      some (slot_col n f) := fun f => get_slot_index_closed sheet n f h1 h2
  simp only [set_slot_values, SLOT_TEMPLATE, List.foldl, hidx, Offer.field]

/-- Reading any cell after one slot write. -/
theorem get_cell_set_slot_values (sheet : List (List Cell)) (row : List Cell)
    (n : Nat) (v : Offer) (j : Nat) (h1 : 1 ≤ n)
    (h2 : n ≤ ((build_sheet_schema sheet).headers.length - 5) / 7) :
    get_cell (set_slot_values row (build_sheet_schema sheet) n v) j =
      if j = slot_col n .supplier then v.supplier
      else if j = slot_col n .leadTime then v.leadTime
      else if j = slot_col n .shipping then v.shipping
      else if j = slot_col n .tax then v.tax
      else if j = slot_col n .price then v.price
      else if j = slot_col n .remark then v.remark
      else if j = slot_col n .brand then v.brand
      else get_cell row j := by
  rw [set_slot_values_closed sheet row n v h1 h2, get_cell_set_cell,
    get_cell_set_cell, get_cell_set_cell, get_cell_set_cell,
    get_cell_set_cell, get_cell_set_cell, get_cell_set_cell]

theorem pairwise_filterMap_of {α β : Type} (f : α → Option β)
    {R : α → α → Prop} {S : β → β → Prop}
    (h : ∀ a b x y, R a b → f a = some x → f b = some y → S x y) :
    ∀ l : List α, l.Pairwise R → (l.filterMap f).Pairwise S := by
  intro l
  induction l with
  | nil => intro _; simp
  | cons a t ih =>
    intro hp
    rw [List.pairwise_cons] at hp
    rw [List.filterMap_cons]
    cases hfa : f a with
    | none => exact ih hp.2
    | some x =>
      refine List.Pairwise.cons ?_ (ih hp.2)
      intro y hy
      rw [List.mem_filterMap] at hy
      obtain ⟨b, hb, hfb⟩ := hy
      exact h a b x y (hp.1 b hb) hfa hfb

/-- Every entry of the priced-offer list carries its own offer's price. -/
theorem priced_offers_price (row : List Cell) (schema : SheetSchema)
    (nums : List Nat) :
    ∀ o ∈ priced_offers row schema nums, get_price o.2.2 = some o.1 := by
  intro o ho
  unfold priced_offers at ho
  rw [List.mem_filterMap] at ho
  obtain ⟨n, hn, hfn⟩ := ho
  cases hgp : get_price (get_slot_values row schema n) with
  | none => rw [hgp] at hfn; exact absurd hfn (by simp)
  | some p =>
    rw [hgp] at hfn
    simp at hfn
    rw [← hfn]
    exact hgp

/-- The priced-offer list keeps slot numbers strictly increasing. -/
theorem priced_offers_slots_lt (row : List Cell) (schema : SheetSchema)
    (nums : List Nat) (hnums : nums.Pairwise (· < ·)) :
    (priced_offers row schema nums).Pairwise (fun x y => x.2.1 < y.2.1) := by
  unfold priced_offers
  apply pairwise_filterMap_of _ _ nums hnums
  intro a b x y hab hfa hfb
  cases hga : get_price (get_slot_values row schema a) with
  | none => rw [hga] at hfa; exact absurd hfa (by simp)
  | some p =>
    cases hgb : get_price (get_slot_values row schema b) with
    | none => rw [hgb] at hfb; exact absurd hfb (by simp)
    | some q =>
      rw [hga] at hfa
      rw [hgb] at hfb
      simp at hfa hfb
      rw [← hfa, ← hfb]
      exact hab

/-- The sorted priced-offer list is strictly ordered by the
(price, original slot number) key. -/
theorem sort_offers_strict (row : List Cell) (schema : SheetSchema)
    (nums : List Nat) (hnums : nums.Pairwise (· < ·)) :
    (sort_offers (priced_offers row schema nums)).Pairwise
      (fun x y => x.1 < y.1 ∨ (x.1 = y.1 ∧ x.2.1 < y.2.1)) := by
  have hsorted : (sort_offers (priced_offers row schema nums)).Pairwise
      offer_key_le := List.sorted_insertionSort offer_key_le _
  have hperm : (sort_offers (priced_offers row schema nums)).Perm
      (priced_offers row schema nums) := List.perm_insertionSort _ _
  have hnd : ((priced_offers row schema nums).map (fun x => x.2.1)).Nodup := by
    rw [List.nodup_iff_sublist]
    intro a h
    have := (List.pairwise_map.mpr
      ((priced_offers_slots_lt row schema nums hnums).imp
        (fun h => Nat.ne_of_lt h)))
    exact absurd ((h.subset (List.mem_cons_self a [a])))
      (by
        intro hmem
        have := List.Pairwise.sublist h this
        rw [List.pairwise_cons] at this
        exact absurd rfl (this.1 a (List.mem_singleton.mpr rfl)))
  have hnd2 : ((sort_offers (priced_offers row schema nums)).map
      (fun x => x.2.1)).Nodup := by
    rw [(hperm.map (fun x => x.2.1)).nodup_iff]
    exact hnd
  have hne : (sort_offers (priced_offers row schema nums)).Pairwise
      (fun x y => x.2.1 ≠ y.2.1) := List.pairwise_map.mp hnd2
  refine (hsorted.and hne).imp ?_
  rintro a b ⟨hle, hneq⟩
  rcases hle with h | ⟨h1, h2⟩
  · exact Or.inl h
  · exact Or.inr ⟨h1, lt_of_le_of_ne h2 hneq⟩

theorem opt_price_le_trans {x y z : Option Rat} (h1 : opt_price_le x y)
    (h2 : opt_price_le y z) : opt_price_le x z := by
  cases x with
  | none =>
    cases y with
    | none =>
      cases z with
      | none => trivial
      | some q => exact (h2 : False).elim
    | some q => exact (h1 : False).elim
  | some p =>
    cases z with
    | none => trivial
    | some r =>
      cases y with
      | none => exact (h2 : False).elim
      | some q => exact le_trans h1 h2

theorem mem_insert_by_price (w : Offer) (p : Rat) :
    ∀ (l : List Offer) (o : Offer), o ∈ insert_by_price w p l →
      o = w ∨ o ∈ l := by
  intro l
  induction l with
  | nil =>
    intro o ho
    rw [insert_by_price, List.mem_singleton] at ho
    exact Or.inl ho
  | cons v rest ih =>
    intro o ho
    rw [insert_by_price] at ho
    by_cases hlt : price_lt p (get_price v) = true
    · rw [if_pos hlt] at ho
      rcases List.mem_cons.mp ho with h | h
      · exact Or.inl h
      · exact Or.inr h
    · rw [if_neg hlt] at ho
      rcases List.mem_cons.mp ho with h | h
      · exact Or.inr (h ▸ List.mem_cons_self v rest)
      · rcases ih o h with h2 | h2
        · exact Or.inl h2
        · exact Or.inr (List.mem_cons_of_mem v h2)

/-- Inserting the new offer before the first strictly-greater price keeps
the price sequence non-decreasing. -/
theorem insert_by_price_sorted (w : Offer) (p : Rat)
    (hw : get_price w = some p) :
    ∀ l : List Offer, ((l.map get_price).Pairwise opt_price_le) →
      (∀ o ∈ l, (get_price o).isSome = true) →
      ((insert_by_price w p l).map get_price).Pairwise opt_price_le := by
  intro l
  induction l with
  | nil =>
    intro _ _
    simp [insert_by_price]
  | cons v rest ih =>
    intro hs hsome
    obtain ⟨qv, hqv⟩ : ∃ qv, get_price v = some qv := by
      have := hsome v (List.mem_cons_self v rest)
      cases hv : get_price v with
      | none => rw [hv] at this; exact absurd this (by simp)
      | some q => exact ⟨q, rfl⟩
    rw [List.map_cons, List.pairwise_cons] at hs
    rw [insert_by_price]
    by_cases hlt : price_lt p (get_price v) = true
    · rw [if_pos hlt]
      have hplt : p ≤ qv := by
        rw [hqv] at hlt
        have : p < qv := by simpa [price_lt] using hlt
        exact le_of_lt this
      simp only [List.map_cons]
      refine List.Pairwise.cons ?_ ?_
      · intro x hx
        rcases List.mem_cons.mp hx with h | h
        · rw [h, hw, hqv]
          exact hplt
        · have hvx : opt_price_le (get_price v) x := hs.1 x h
          have hwv : opt_price_le (get_price w) (get_price v) := by
            rw [hw, hqv]
            exact hplt
          rw [hw]
          rw [hw] at hwv
          exact opt_price_le_trans hwv hvx
      · exact List.Pairwise.cons hs.1 hs.2
    · rw [if_neg hlt]
      have hple : qv ≤ p := by
        rw [hqv] at hlt
        have : ¬ p < qv := by simpa [price_lt] using hlt
        exact le_of_not_lt this
      simp only [List.map_cons]
      refine List.Pairwise.cons ?_
        (ih hs.2 (fun o ho => hsome o (List.mem_cons_of_mem v ho)))
      intro x hx
      rw [List.mem_map] at hx
      obtain ⟨o, ho, hox⟩ := hx
      rcases mem_insert_by_price w p rest o ho with h | h
      · rw [← hox, h, hqv, hw]
        exact hple
      · rw [← hox]
        exact hs.1 (get_price o) (List.mem_map_of_mem get_price h)

/-- The sorted slot-number list in closed form: `[1, 2, ..., K]`. -/
theorem slot_numbers_closed (sheet : List (List Cell)) :
    slot_numbers_of (build_sheet_schema sheet) =
      (List.range (((build_sheet_schema sheet).headers.length - 5) / 7)).map
        (fun j => 1 + j) := by
  unfold slot_numbers_of
  rw [build_sheet_schema_slots, List.map_map]
  have hcomp : (Prod.fst ∘ fun j => (1 + j, mk_slot_mapping (5 + 7 * j))) =
      (fun j : Nat => 1 + j) := rfl
  rw [hcomp]
  apply List.Sorted.insertionSort_eq
  exact List.pairwise_map.mpr ((List.pairwise_lt_range _).imp
    (fun h => by omega))

set_option maxHeartbeats 1000000 in
/-- Reading a slot back right after writing it. -/
theorem get_slot_values_set_same (sheet : List (List Cell)) (row : List Cell)
    (n : Nat) (v : Offer) (h1 : 1 ≤ n)
    (h2 : n ≤ ((build_sheet_schema sheet).headers.length - 5) / 7) :
    get_slot_values (set_slot_values row (build_sheet_schema sheet) n v)
      (build_sheet_schema sheet) n = v := by
  have hidx : ∀ f, get_slot_index (build_sheet_schema sheet) n f =
      some (slot_col n f) := fun f => get_slot_index_closed sheet n f h1 h2
  cases v with
  | mk b r p t s lt sup =>
    simp only [get_slot_values, get_slot_cell, hidx]
    rw [get_cell_set_slot_values sheet row n _ (slot_col n .brand) h1 h2,
      get_cell_set_slot_values sheet row n _ (slot_col n .remark) h1 h2,
      get_cell_set_slot_values sheet row n _ (slot_col n .price) h1 h2,
      get_cell_set_slot_values sheet row n _ (slot_col n .tax) h1 h2,
      get_cell_set_slot_values sheet row n _ (slot_col n .shipping) h1 h2,
      get_cell_set_slot_values sheet row n _ (slot_col n .leadTime) h1 h2,
      get_cell_set_slot_values sheet row n _ (slot_col n .supplier) h1 h2]
    simp only [Offer.mk.injEq, slot_col, indexOf_brand, indexOf_remark,
      indexOf_price, indexOf_tax, indexOf_shipping, indexOf_leadTime,
      indexOf_supplier]
    refine ⟨?_, ?_, ?_, ?_, ?_, ?_, ?_⟩ <;>
      · split_ifs <;> first | rfl | (exfalso; omega)

set_option maxHeartbeats 1000000 in
/-- Writing one slot leaves every other slot's cells untouched. -/
theorem get_slot_values_set_other (sheet : List (List Cell))
    (row : List Cell) (m n : Nat) (v : Offer) (h1m : 1 ≤ m)
    (h2m : m ≤ ((build_sheet_schema sheet).headers.length - 5) / 7)
    (h1n : 1 ≤ n)
    (h2n : n ≤ ((build_sheet_schema sheet).headers.length - 5) / 7)
    (hne : n ≠ m) :
    get_slot_values (set_slot_values row (build_sheet_schema sheet) m v)
      (build_sheet_schema sheet) n =
      get_slot_values row (build_sheet_schema sheet) n := by
  have hidxn : ∀ f, get_slot_index (build_sheet_schema sheet) n f =
      some (slot_col n f) := fun f => get_slot_index_closed sheet n f h1n h2n
  simp only [get_slot_values, get_slot_cell, hidxn]
  rw [get_cell_set_slot_values sheet row m _ (slot_col n .brand) h1m h2m,
    get_cell_set_slot_values sheet row m _ (slot_col n .remark) h1m h2m,
    get_cell_set_slot_values sheet row m _ (slot_col n .price) h1m h2m,
    get_cell_set_slot_values sheet row m _ (slot_col n .tax) h1m h2m,
    get_cell_set_slot_values sheet row m _ (slot_col n .shipping) h1m h2m,
    get_cell_set_slot_values sheet row m _ (slot_col n .leadTime) h1m h2m,
    get_cell_set_slot_values sheet row m _ (slot_col n .supplier) h1m h2m]
  simp only [Offer.mk.injEq, slot_col, indexOf_brand, indexOf_remark,
    indexOf_price, indexOf_tax, indexOf_shipping, indexOf_leadTime,
    indexOf_supplier]
  refine ⟨?_, ?_, ?_, ?_, ?_, ?_, ?_⟩ <;>
    · split_ifs <;> first | rfl | (exfalso; omega)

/-- Writing a list of slots none of which is `n` leaves slot `n` alone. -/
theorem write_slots_not_mem (sheet : List (List Cell)) :
    ∀ (pairs : List (Nat × Offer)) (row : List Cell) (n : Nat),
      (∀ p ∈ pairs, 1 ≤ p.1 ∧
        p.1 ≤ ((build_sheet_schema sheet).headers.length - 5) / 7 ∧
        p.1 ≠ n) →
      1 ≤ n → n ≤ ((build_sheet_schema sheet).headers.length - 5) / 7 →
      get_slot_values (write_slots (build_sheet_schema sheet) pairs row)
        (build_sheet_schema sheet) n =
        get_slot_values row (build_sheet_schema sheet) n := by
  intro pairs
  induction pairs with
  | nil => intro row n _ _ _; rfl
  | cons q rest ih =>
    intro row n hall h1n h2n
    have hq := hall q (List.mem_cons_self q rest)
    have hstep : write_slots (build_sheet_schema sheet) (q :: rest) row =
        write_slots (build_sheet_schema sheet) rest
          (set_slot_values row (build_sheet_schema sheet) q.1 q.2) := rfl
    rw [hstep, ih _ n (fun p hp => hall p (List.mem_cons_of_mem q hp)) h1n h2n,
      get_slot_values_set_other sheet row q.1 n q.2 hq.1 hq.2.1 h1n h2n
        (fun h => hq.2.2 h.symm)]

/-- Reading slot `n` after writing a duplicate-free list of slots that
contains `(n, v)` yields `v`. -/
theorem write_slots_mem (sheet : List (List Cell)) :
    ∀ (pairs : List (Nat × Offer)) (row : List Cell) (n : Nat) (v : Offer),
      (∀ p ∈ pairs, 1 ≤ p.1 ∧
        p.1 ≤ ((build_sheet_schema sheet).headers.length - 5) / 7) →
      (pairs.map Prod.fst).Nodup → (n, v) ∈ pairs →
      get_slot_values (write_slots (build_sheet_schema sheet) pairs row)
        (build_sheet_schema sheet) n = v := by
  intro pairs
  induction pairs with
  | nil => intro row n v _ _ hmem; simp at hmem
  | cons q rest ih =>
    obtain ⟨qn, qv⟩ := q
    intro row n v hall hnd hmem
    have hq := hall (qn, qv) (List.mem_cons_self _ rest)
    rw [List.map_cons, List.nodup_cons] at hnd
    have hstep : write_slots (build_sheet_schema sheet) ((qn, qv) :: rest)
        row = write_slots (build_sheet_schema sheet) rest
          (set_slot_values row (build_sheet_schema sheet) qn qv) := rfl
    rw [hstep]
    rcases List.mem_cons.mp hmem with heq | hmem2
    · rw [Prod.mk.injEq] at heq
      obtain ⟨hn, hv⟩ := heq
      subst hn
      subst hv
      have hrest : ∀ p ∈ rest, 1 ≤ p.1 ∧
          p.1 ≤ ((build_sheet_schema sheet).headers.length - 5) / 7 ∧
          p.1 ≠ n := by
        intro p hp
        have hb := hall p (List.mem_cons_of_mem _ hp)
        refine ⟨hb.1, hb.2, ?_⟩
        intro hpn
        apply hnd.1
        rw [← hpn]
        exact List.mem_map.mpr ⟨p, hp, rfl⟩
      rw [write_slots_not_mem sheet rest _ n hrest hq.1 hq.2]
      exact get_slot_values_set_same sheet row n v hq.1 hq.2
    · exact ih _ n v (fun p hp => hall p (List.mem_cons_of_mem _ hp)) hnd.2 hmem2

theorem slot_numbers_pairwise_lt (sheet : List (List Cell)) :
    (slot_numbers_of (build_sheet_schema sheet)).Pairwise (· < ·) := by
  rw [slot_numbers_closed]
  exact List.pairwise_map.mpr ((List.pairwise_lt_range _).imp
    (fun h => by omega))

theorem slot_numbers_nodup (sheet : List (List Cell)) :
    (slot_numbers_of (build_sheet_schema sheet)).Nodup :=
  (slot_numbers_pairwise_lt sheet).imp (fun h => Nat.ne_of_lt h)

theorem slot_numbers_mem (sheet : List (List Cell)) (n : Nat)
    (h : n ∈ slot_numbers_of (build_sheet_schema sheet)) :
    1 ≤ n ∧ n ≤ ((build_sheet_schema sheet).headers.length - 5) / 7 := by
  rw [slot_numbers_closed] at h
  rw [List.mem_map] at h
  obtain ⟨j, hj, hjn⟩ := h
  rw [List.mem_range] at hj
  omega

theorem slot_numbers_length (sheet : List (List Cell)) :
    (slot_numbers_of (build_sheet_schema sheet)).length =
      ((build_sheet_schema sheet).headers.length - 5) / 7 := by
  rw [slot_numbers_closed, List.length_map, List.length_range]

theorem sorted_vals_prices_pairwise (sheet : List (List Cell))
    (a : UpdateAction) :
    (((sort_offers (sheet_priced sheet a)).map (fun x => x.2.2)).map
      get_price).Pairwise opt_price_le := by
  have hmapeq : (sort_offers (sheet_priced sheet a)).map
      (fun x => get_price x.2.2) =
      (sort_offers (sheet_priced sheet a)).map (fun x => some x.1) := by
    apply List.map_congr_left
    intro x hx
    exact priced_offers_price _ _ _ x
      ((List.perm_insertionSort offer_key_le _).mem_iff.mp hx)
  rw [List.map_map]
  have hco : (get_price ∘ fun x : Rat × Nat × Offer => x.2.2) =
      (fun x : Rat × Nat × Offer => get_price x.2.2) := rfl
  rw [hco, hmapeq]
  apply List.pairwise_map.mpr
  apply (sort_offers_strict _ _ _ (slot_numbers_pairwise_lt sheet)).imp
  rintro a b (h | ⟨h, -⟩)
  · exact le_of_lt h
  · exact le_of_eq h

theorem merged_prices_pairwise (sheet : List (List Cell)) (a : UpdateAction) :
    ((ranked_insert sheet a (sort_offers (sheet_priced sheet a))).map
      get_price).Pairwise opt_price_le := by
  apply insert_by_price_sorted
    (the_new_offer sheet a (target_row_cells sheet a)) a.price rfl
  · exact sorted_vals_prices_pairwise sheet a
  · intro o ho
    rw [List.mem_map] at ho
    obtain ⟨x, hx, hxo⟩ := ho
    rw [← hxo, priced_offers_price _ _ _ x
      ((List.perm_insertionSort offer_key_le _).mem_iff.mp hx)]
    rfl

/-- C1.  For every sheet with at least one detected slot and every update
action with an in-range `target_row`, `process_update` rewrites the target
row's slots as the claim describes.  Witness `ranked` is the ranking of the
row's previously priced offers (slots with an absent or unparseable price
are dropped by `priced_offers` before ranking): it is a permutation of
them, sorted by price ascending with ties kept in original slot order
(strictly increasing slot numbers), and each entry carries its own parsed
price.  The new offer (priced at `action.price`) is inserted before the
first strictly greater price, keeping prices ascending, so the truncation
to the number of detected slots drops only top-priced offers (the
highest-priced overflow is evicted).  The final conjunct: reading the
updated sheet's target row back through the schema yields exactly that
ranked-and-inserted list truncated to the slot count, with every slot
beyond it cleared to the all-absent offer. -/
theorem c1_rank_shift_evict (sheet : List (List Cell)) (a : UpdateAction)
    (h1 : 1 ≤ a.targetRow) (h2 : a.targetRow ≤ (sheet.length : Int))
    (h3 : (build_sheet_schema sheet).slots.isEmpty = false) :
    ∃ ranked : List (Rat × Nat × Offer),
      ranked.Perm (sheet_priced sheet a) ∧
      ranked.Pairwise (fun x y => x.1 < y.1 ∨ (x.1 = y.1 ∧ x.2.1 < y.2.1)) ∧
      (∀ o ∈ ranked, get_price o.2.2 = some o.1) ∧
      get_price (the_new_offer sheet a (target_row_cells sheet a)) =
        some a.price ∧
      ((ranked_insert sheet a ranked).map get_price).Pairwise opt_price_le ∧
      (∀ x ∈ (ranked_insert sheet a ranked).take
          (slot_numbers_of (build_sheet_schema sheet)).length,
        ∀ y ∈ (ranked_insert sheet a ranked).drop
          (slot_numbers_of (build_sheet_schema sheet)).length,
        opt_price_le (get_price x) (get_price y)) ∧
      target_row_slots (build_sheet_schema sheet) (process_update sheet a)
          (a.targetRow - 1).toNat =
        (ranked_insert sheet a ranked).take
            (slot_numbers_of (build_sheet_schema sheet)).length ++
          List.replicate
            ((slot_numbers_of (build_sheet_schema sheet)).length -
              (ranked_insert sheet a ranked).length) empty_offer := by
  refine ⟨sort_offers (sheet_priced sheet a), List.perm_insertionSort _ _,
    sort_offers_strict _ _ _ (slot_numbers_pairwise_lt sheet), ?_, rfl,
    merged_prices_pairwise sheet a, ?hevict, ?hmain⟩
  · intro o ho
    have hmem := (List.perm_insertionSort offer_key_le
      (sheet_priced sheet a)).mem_iff.mp ho
    exact priced_offers_price _ _ _ o hmem
  case hevict =>
    intro x hx y hy
    have hpair := merged_prices_pairwise sheet a
    rw [← List.take_append_drop
      ((slot_numbers_of (build_sheet_schema sheet)).length)
      (ranked_insert sheet a (sort_offers (sheet_priced sheet a))),
      List.map_append, List.pairwise_append] at hpair
    exact hpair.2.2 (get_price x) (List.mem_map_of_mem get_price hx)
      (get_price y) (List.mem_map_of_mem get_price hy)
  case hmain =>
    have hidxlt : (a.targetRow - 1).toNat < sheet.length := by omega
    rw [process_update_in_range sheet a h1 h2 h3]
    unfold target_row_slots
    have hrow2 : (sheet.set (a.targetRow - 1).toNat
        (update_row sheet a (sheet.getD (a.targetRow - 1).toNat []))).getD
        (a.targetRow - 1).toNat [] =
        update_row sheet a (sheet.getD (a.targetRow - 1).toNat []) := by
      rw [List.getD_eq_getElem?_getD, List.getElem?_set_self hidxlt]
      rfl
    rw [hrow2]
    have hupd : update_row sheet a (sheet.getD (a.targetRow - 1).toNat []) =
        write_slots (build_sheet_schema sheet)
          (write_pairs (slot_numbers_of (build_sheet_schema sheet))
            ((ranked_insert sheet a
              (sort_offers (sheet_priced sheet a))).take
              (slot_numbers_of (build_sheet_schema sheet)).length))
          (sheet.getD (a.targetRow - 1).toNat []) := rfl
    rw [hupd]
    have hovlen : ((ranked_insert sheet a
        (sort_offers (sheet_priced sheet a))).take
          (slot_numbers_of (build_sheet_schema sheet)).length).length =
        min (slot_numbers_of (build_sheet_schema sheet)).length
          (ranked_insert sheet a
            (sort_offers (sheet_priced sheet a))).length := by
      rw [List.length_take]
    have hrepl : (slot_numbers_of (build_sheet_schema sheet)).length -
        (ranked_insert sheet a (sort_offers (sheet_priced sheet a))).length =
        (slot_numbers_of (build_sheet_schema sheet)).length -
          ((ranked_insert sheet a (sort_offers (sheet_priced sheet a))).take
            (slot_numbers_of (build_sheet_schema sheet)).length).length := by
      rw [hovlen]
      omega
    rw [hrepl]
    have hpadlen : (((ranked_insert sheet a
        (sort_offers (sheet_priced sheet a))).take
          (slot_numbers_of (build_sheet_schema sheet)).length) ++
        List.replicate ((slot_numbers_of (build_sheet_schema sheet)).length -
          ((ranked_insert sheet a (sort_offers (sheet_priced sheet a))).take
            (slot_numbers_of (build_sheet_schema sheet)).length).length)
          empty_offer).length =
        (slot_numbers_of (build_sheet_schema sheet)).length := by
      rw [List.length_append, List.length_replicate, hovlen]
      omega
    have hkeys : (write_pairs (slot_numbers_of (build_sheet_schema sheet))
        ((ranked_insert sheet a (sort_offers (sheet_priced sheet a))).take
          (slot_numbers_of (build_sheet_schema sheet)).length)).map
        Prod.fst = slot_numbers_of (build_sheet_schema sheet) := by
      unfold write_pairs
      apply List.map_fst_zip
      rw [hpadlen]
    have hbound : ∀ p ∈ write_pairs
        (slot_numbers_of (build_sheet_schema sheet))
        ((ranked_insert sheet a (sort_offers (sheet_priced sheet a))).take
          (slot_numbers_of (build_sheet_schema sheet)).length), 1 ≤ p.1 ∧
        p.1 ≤ ((build_sheet_schema sheet).headers.length - 5) / 7 := by
      intro p hp
      unfold write_pairs at hp
      exact slot_numbers_mem sheet p.1 (List.of_mem_zip hp).1
    have hnd : ((write_pairs (slot_numbers_of (build_sheet_schema sheet))
        ((ranked_insert sheet a (sort_offers (sheet_priced sheet a))).take
          (slot_numbers_of (build_sheet_schema sheet)).length)).map
        Prod.fst).Nodup := by
      rw [hkeys]
      exact slot_numbers_nodup sheet
    apply List.ext_getElem?
    intro k
    by_cases hklt : k < (slot_numbers_of (build_sheet_schema sheet)).length
    · have hnumsk : (slot_numbers_of (build_sheet_schema sheet))[k]? =
          some (1 + k) := by
        rw [slot_numbers_closed, List.getElem?_map,
          List.getElem?_range (by
            have := slot_numbers_length sheet
            omega)]
        rfl
      obtain ⟨vk, hvk⟩ : ∃ v, (((ranked_insert sheet a
          (sort_offers (sheet_priced sheet a))).take
            (slot_numbers_of (build_sheet_schema sheet)).length) ++
          List.replicate
            ((slot_numbers_of (build_sheet_schema sheet)).length -
              ((ranked_insert sheet a
                (sort_offers (sheet_priced sheet a))).take
                (slot_numbers_of (build_sheet_schema sheet)).length).length)
            empty_offer)[k]? = some v := by
        rw [List.getElem?_eq_getElem (by rw [hpadlen]; exact hklt)]
        exact ⟨_, rfl⟩
      have hzipmem : ((1 + k : Nat), vk) ∈ write_pairs
          (slot_numbers_of (build_sheet_schema sheet))
          ((ranked_insert sheet a (sort_offers (sheet_priced sheet a))).take
            (slot_numbers_of (build_sheet_schema sheet)).length) := by
        have hz : (write_pairs (slot_numbers_of (build_sheet_schema sheet))
            ((ranked_insert sheet a
              (sort_offers (sheet_priced sheet a))).take
              (slot_numbers_of (build_sheet_schema sheet)).length))[k]? =
            some ((1 + k : Nat), vk) := by
          unfold write_pairs
          rw [List.getElem?_zip_eq_some]
          exact ⟨hnumsk, hvk⟩
        exact List.getElem?_mem hz
      have hread := write_slots_mem sheet _
        (sheet.getD (a.targetRow - 1).toNat []) (1 + k) vk hbound hnd hzipmem
      rw [List.getElem?_map, hnumsk, hvk]
      simp only [Option.map_some']
      rw [hread]
    · rw [List.getElem?_eq_none (by
        rw [List.length_map]
        omega),
        List.getElem?_eq_none (by rw [hpadlen]; omega)]

theorem c1_rank_shift_evict_witness :
    (1 ≤ exAction120.targetRow ∧
      exAction120.targetRow ≤ (exSheetFull.length : Int) ∧
      (build_sheet_schema exSheetFull).slots.isEmpty = false) ∧
    (∃ ranked : List (Rat × Nat × Offer),
      ranked.Perm (sheet_priced exSheetFull exAction120) ∧
      ranked.Pairwise (fun x y => x.1 < y.1 ∨ (x.1 = y.1 ∧ x.2.1 < y.2.1)) ∧
      (∀ o ∈ ranked, get_price o.2.2 = some o.1) ∧
      get_price (the_new_offer exSheetFull exAction120
        (target_row_cells exSheetFull exAction120)) =
        some exAction120.price ∧
      ((ranked_insert exSheetFull exAction120 ranked).map
        get_price).Pairwise opt_price_le ∧
      (∀ x ∈ (ranked_insert exSheetFull exAction120 ranked).take
          (slot_numbers_of (build_sheet_schema exSheetFull)).length,
        ∀ y ∈ (ranked_insert exSheetFull exAction120 ranked).drop
          (slot_numbers_of (build_sheet_schema exSheetFull)).length,
        opt_price_le (get_price x) (get_price y)) ∧
      target_row_slots (build_sheet_schema exSheetFull)
          (process_update exSheetFull exAction120)
          (exAction120.targetRow - 1).toNat =
        (ranked_insert exSheetFull exAction120 ranked).take
            (slot_numbers_of (build_sheet_schema exSheetFull)).length ++
          List.replicate
            ((slot_numbers_of (build_sheet_schema exSheetFull)).length -
              (ranked_insert exSheetFull exAction120 ranked).length)
            empty_offer) :=
  ⟨⟨by decide, by decide, by decide⟩,
    c1_rank_shift_evict exSheetFull exAction120
      (by decide) (by decide) (by decide)⟩
